import Mathlib

/-!
Shallow embedding of the Poker repository (Rust) in Lean 4, together with
theorems checking the specification claims against it.

Sources embedded: src/card.rs, src/hand.rs, src/player.rs, src/deck.rs,
src/game.rs.  Chip amounts are `f64` in the source and are embedded as `ℚ`
(exact arithmetic); all claims concern control flow and exact accounting
identities, not IEEE rounding.  Mutation in the source is embedded as
explicit state passing; fallible functions return `Except String`.
-/

namespace Poker

/-! ## Card model (src/card.rs) -/

inductive Suit where
  | Clubs
  | Diamonds
  | Hearts
  | Spades
deriving DecidableEq, Repr

/-- Discriminant order of the derived Rust `Ord` on `Suit` (declaration order). -/
def Suit.val : Suit → Nat
  | .Clubs => 0
  | .Diamonds => 1
  | .Hearts => 2
  | .Spades => 3

inductive Rank where
  | Two
  | Three
  | Four
  | Five
  | Six
  | Seven
  | Eight
  | Nine
  | Ten
  | Jack
  | Queen
  | King
  | Ace
deriving DecidableEq, Repr

/-- The explicit discriminants `Two = 2 .. Ace = 14` from src/card.rs. -/
def Rank.val : Rank → Nat
  | .Two => 2
  | .Three => 3
  | .Four => 4
  | .Five => 5
  | .Six => 6
  | .Seven => 7
  | .Eight => 8
  | .Nine => 9
  | .Ten => 10
  | .Jack => 11
  | .Queen => 12
  | .King => 13
  | .Ace => 14

structure Card where
  rank : Rank
  suit : Suit
deriving DecidableEq, Repr

/-- The derived Rust `Ord` on `Card`: lexicographic on (rank, suit). -/
def Card.cmpCard (a b : Card) : Ordering :=
  (compare a.rank.val b.rank.val).then (compare a.suit.val b.suit.val)

/-! ## Hand evaluator (src/hand.rs) -/

inductive HandRank where
  | HighCard
  | OnePair
  | TwoPair
  | ThreeOfAKind
  | Straight
  | Flush
  | FullHouse
  | FourOfAKind
  | StraightFlush
  | RoyalFlush
deriving DecidableEq, Repr

/-- Discriminant order of the derived Rust `Ord` on `HandRank`. -/
def HandRank.val : HandRank → Nat
  | .HighCard => 0
  | .OnePair => 1
  | .TwoPair => 2
  | .ThreeOfAKind => 3
  | .Straight => 4
  | .Flush => 5
  | .FullHouse => 6
  | .FourOfAKind => 7
  | .StraightFlush => 8
  | .RoyalFlush => 9

structure EvaluatedHand where
  rank : HandRank
  cards : List Card
deriving DecidableEq, Repr

/-- Lexicographic comparison of card sequences: the derived `Ord` on slices. -/
def cmpCardList : List Card → List Card → Ordering
  | [], [] => .eq
  | [], _ :: _ => .lt
  | _ :: _, [] => .gt
  | a :: xs, b :: ys =>
    match Card.cmpCard a b with
    | .eq => cmpCardList xs ys
    | o => o

/-- `impl Ord for EvaluatedHand`: compare by rank, then by the card vectors. -/
def EvaluatedHand.cmp (h1 h2 : EvaluatedHand) : Ordering :=
  (compare h1.rank.val h2.rank.val).then (cmpCardList h1.cards h2.cards)

/-- The comparator of `sorted.sort_by(|a, b| b.rank.cmp(&a.rank))`:
descending by rank only. -/
def rankGe (a b : Card) : Prop := b.rank.val ≤ a.rank.val

instance : DecidableRel rankGe := fun a b => Nat.decLe _ _

instance : IsTotal Card rankGe :=
  ⟨fun a b => (Nat.le_total a.rank.val b.rank.val).symm.imp id id⟩

instance : IsTrans Card rankGe :=
  ⟨fun _ _ _ hab hbc => Nat.le_trans hbc hab⟩

/-- The stable descending-by-rank sort used by `evaluate_five`. -/
def sortByRankDesc (cards : List Card) : List Card :=
  List.insertionSort rankGe cards

/-- The comparator of `ranks.sort_by(|a, b| b.cmp(a))` in `straight_high_card`:
descending rank order. -/
def rankDescRel (a b : Rank) : Prop := b.val ≤ a.val

instance : DecidableRel rankDescRel := fun a b => Nat.decLe _ _

instance : IsTotal Rank rankDescRel :=
  ⟨fun a b => (Nat.le_total a.val b.val).symm.imp id id⟩

instance : IsTrans Rank rankDescRel :=
  ⟨fun _ _ _ hab hbc => Nat.le_trans hbc hab⟩

/-- `Vec::dedup`: remove consecutive repeated elements, keeping one per run. -/
def dedupAdj : List Rank → List Rank
  | [] => []
  | [a] => [a]
  | a :: b :: rest =>
    if a = b then dedupAdj (b :: rest) else a :: dedupAdj (b :: rest)

/-- The window scan `for i in 0..=ranks.len() - 5 { if ranks[i] == ranks[i+4] + 4 }`
over the deduplicated descending rank list. -/
def findStraightWindow : List Rank → Option Rank
  | r0 :: r1 :: r2 :: r3 :: r4 :: rest =>
    if r0.val = r4.val + 4 then some r0
    else findStraightWindow (r1 :: r2 :: r3 :: r4 :: rest)
  | _ => none

/-- src/hand.rs `straight_high_card`: descending deduplicated ranks, a sliding
window for an ordinary straight, then the wheel special case. -/
def straight_high_card (cards : List Card) : Option Rank :=
  let ranks := dedupAdj (List.insertionSort rankDescRel (cards.map Card.rank))
  if ranks.length < 5 then none
  else
    match findStraightWindow ranks with
    | some r => some r
    | none =>
      if Rank.Ace ∈ ranks ∧ Rank.Five ∈ ranks ∧ Rank.Four ∈ ranks ∧
          Rank.Three ∈ ranks ∧ Rank.Two ∈ ranks then
        some Rank.Five
      else none

/-- The `(rank, multiplicity)` list built from the `HashMap` of rank counts.
The keys are the distinct ranks; the subsequent sort by the total comparator
(count descending, then rank descending) makes the hash iteration order
irrelevant, so any enumeration of the distinct ranks is a faithful embedding. -/
def rankCounts (sorted : List Card) : List (Rank × Nat) :=
  ((sorted.map Card.rank).dedup).map
    (fun r => (r, (sorted.filter (fun c => decide (c.rank = r))).length))

/-- The comparator `b.1.cmp(&a.1).then_with(|| b.0.cmp(&a.0))`:
count descending, ties by rank descending. -/
def countsRel (a b : Rank × Nat) : Prop :=
  b.2 < a.2 ∨ (b.2 = a.2 ∧ b.1.val ≤ a.1.val)

instance : DecidableRel countsRel := fun _ _ => by
  unfold countsRel; infer_instance

instance : IsTotal (Rank × Nat) countsRel := by
  constructor
  intro a b
  unfold countsRel
  rcases Nat.lt_trichotomy a.2 b.2 with h | h | h
  · exact Or.inr (Or.inl h)
  · rcases Nat.le_total b.1.val a.1.val with h2 | h2
    · exact Or.inl (Or.inr ⟨h.symm, h2⟩)
    · exact Or.inr (Or.inr ⟨h, h2⟩)
  · exact Or.inl (Or.inl h)

instance : IsTrans (Rank × Nat) countsRel := by
  constructor
  intro a b c hab hbc
  unfold countsRel at *
  rcases hab with h1 | ⟨h1, h1r⟩ <;> rcases hbc with h2 | ⟨h2, h2r⟩
  · exact Or.inl (Nat.lt_trans h2 h1)
  · exact Or.inl (h2 ▸ h1)
  · exact Or.inl (h1 ▸ h2)
  · exact Or.inr ⟨h1 ▸ h2, Nat.le_trans h2r h1r⟩

/-- The classification body of `evaluate_five`, applied to the already
rank-descending-sorted five cards. -/
def evaluateSorted (sorted : List Card) : EvaluatedHand :=
  let headSuit := ((sorted.head?).map Card.suit).getD Suit.Clubs
  let is_flush := sorted.all (fun c => decide (c.suit = headSuit))
  let straight_high := straight_high_card sorted
  if is_flush ∧ straight_high.isSome then
    if straight_high = some Rank.Ace then
      { rank := HandRank.RoyalFlush, cards := sorted }
    else
      { rank := HandRank.StraightFlush, cards := sorted }
  else
    let counts := List.insertionSort countsRel (rankCounts sorted)
    match counts with
    | [] => { rank := HandRank.HighCard, cards := sorted }
    | (r0, c0) :: rest =>
      if c0 = 4 then
        let kicker := sorted.find? (fun c => decide (c.rank ≠ r0))
        { rank := HandRank.FourOfAKind,
          cards := sorted.filter (fun c => decide (c.rank = r0)) ++
            (kicker.map (fun k => [k])).getD [] }
      else if c0 = 3 ∧ (rest.head?.map Prod.snd).getD 0 ≥ 2 then
        { rank := HandRank.FullHouse,
          cards := sorted.filter (fun c => decide (c.rank = r0)) ++
            (sorted.filter
              (fun c => decide (c.rank = ((rest.head?.map Prod.fst).getD r0)))).take 2 }
      else if is_flush then
        { rank := HandRank.Flush, cards := sorted }
      else if straight_high.isSome then
        { rank := HandRank.Straight, cards := sorted }
      else if c0 = 3 then
        { rank := HandRank.ThreeOfAKind,
          cards := sorted.filter (fun c => decide (c.rank = r0)) ++
            (sorted.filter (fun c => decide (c.rank ≠ r0))).take 2 }
      else if c0 = 2 ∧ (rest.head?.map Prod.snd).getD 0 = 2 then
        let r1 := (rest.head?.map Prod.fst).getD r0
        { rank := HandRank.TwoPair,
          cards := sorted.filter (fun c => decide (c.rank = r0)) ++
            sorted.filter (fun c => decide (c.rank = r1)) ++
            ((sorted.find? (fun c => decide (c.rank ≠ r0 ∧ c.rank ≠ r1))).map
              (fun k => [k])).getD [] }
      else if c0 = 2 then
        { rank := HandRank.OnePair,
          cards := sorted.filter (fun c => decide (c.rank = r0)) ++
            (sorted.filter (fun c => decide (c.rank ≠ r0))).take 3 }
      else
        { rank := HandRank.HighCard, cards := sorted }

/-- src/hand.rs `evaluate_five`: sort the five cards descending by rank,
then classify. -/
def evaluate_five (cards : List Card) : EvaluatedHand :=
  evaluateSorted (sortByRankDesc cards)

/-! ## Player (src/player.rs) -/

inductive PlayerAction where
  | Fold
  | Check
  | Call
  | Raise (amount : ℚ)
  | AllIn
deriving DecidableEq, Repr

inductive PlayerState where
  | Active
  | Folded
  | AllIn
  | SittingOut
deriving DecidableEq, Repr

structure Player where
  name : String
  balance : ℚ
  hole_cards : List Card
  hand_strength : ℚ
  chips_in_play : ℚ
  state : PlayerState
  action : Option PlayerAction
deriving DecidableEq, Repr

instance : Inhabited Player :=
  ⟨{ name := "", balance := 0, hole_cards := [], hand_strength := 0,
     chips_in_play := 0, state := PlayerState.Active, action := none }⟩

def Player.new (name : String) (balance : ℚ) : Player :=
  { name := name, balance := balance, hole_cards := [], hand_strength := 0,
    chips_in_play := 0, state := PlayerState.Active, action := none }

def Player.add_card (p : Player) (card : Card) : Player :=
  { p with hole_cards := p.hole_cards ++ [card] }

def Player.clear_cards (p : Player) : Player :=
  { p with hole_cards := [] }

/-- `Player::bet`: validates, then moves chips from balance to chips_in_play.
On error nothing has been written (the source returns before mutating). -/
def Player.bet (p : Player) (amount : ℚ) : Except String (Player × ℚ) :=
  if amount > p.balance then Except.error "Insufficient funds"
  else if amount ≤ 0 then Except.error "Bet amount must be positive"
  else Except.ok
    ({ p with balance := p.balance - amount,
              chips_in_play := p.chips_in_play + amount }, amount)

def Player.fold (p : Player) : Player :=
  { p with state := PlayerState.Folded, action := some PlayerAction.Fold }

def Player.check (p : Player) : Player :=
  { p with action := some PlayerAction.Check }

def Player.call (p : Player) (amount : ℚ) : Except String (Player × ℚ) :=
  match p.bet amount with
  | Except.error e => Except.error e
  | Except.ok (p2, _) =>
    Except.ok ({ p2 with action := some PlayerAction.Call }, amount)

def Player.raise (p : Player) (amount : ℚ) : Except String (Player × ℚ) :=
  match p.bet amount with
  | Except.error e => Except.error e
  | Except.ok (p2, _) =>
    Except.ok ({ p2 with action := some (PlayerAction.Raise amount) }, amount)

def Player.all_in (p : Player) : Player × ℚ :=
  let amount := p.balance
  ({ p with balance := 0, chips_in_play := p.chips_in_play + amount,
            state := PlayerState.AllIn, action := some PlayerAction.AllIn },
   amount)

def Player.collect_winnings (p : Player) (amount : ℚ) : Player :=
  { p with balance := p.balance + amount, chips_in_play := 0 }

def Player.reset_for_new_hand (p : Player) : Player :=
  { p with hole_cards := [], hand_strength := 0, chips_in_play := 0,
           state := PlayerState.Active, action := none }

/-! ## Deck (src/deck.rs)

`Deck::new_shuffled` is random; hand starts are therefore parameterised by
the fresh deck. `draw` is `Vec::pop`: it removes the last element. -/

abbrev Deck := List Card

def Deck.draw (d : Deck) : Option (Card × Deck) :=
  match d.getLast? with
  | some card => some (card, d.dropLast)
  | none => none

/-! ## Game (src/game.rs) -/

inductive BettingRound where
  | PreFlop
  | Flop
  | Turn
  | River
  | Showdown
deriving DecidableEq, Repr

structure Game where
  players : List Player
  deck : Deck
  current_player : Nat
  current_round : BettingRound
  community_cards : List Card
  pot : ℚ
  current_bet : ℚ
  dealer_position : Nat
  small_blind : ℚ
  big_blind : ℚ
  active_players : List Nat
deriving DecidableEq, Repr

def Game.new (small_blind big_blind : ℚ) (deck : Deck) : Game :=
  { players := [], deck := deck, current_player := 0,
    current_round := BettingRound.PreFlop, community_cards := [],
    pot := 0, current_bet := 0, dealer_position := 0,
    small_blind := small_blind, big_blind := big_blind, active_players := [] }

def Game.add_player (g : Game) (name : String) (balance : ℚ) : Game :=
  { g with players := g.players ++ [Player.new name balance] }

/-- The player at a seat (seats used by the engine are always in range). -/
def playerAt (g : Game) (i : Nat) : Player :=
  (g.players.get? i).getD default

/-- The small-blind block of `post_blinds`: seat `pos` is forced to bet the
small blind; a failed bet is silently skipped. -/
def postSmallBlindAt (g : Game) (pos : Nat) : Game :=
  match g.players.get? pos with
  | some player =>
    match player.bet g.small_blind with
    | Except.ok (p2, _) =>
      { g with players := g.players.set pos p2, pot := g.pot + g.small_blind }
    | Except.error _ => g
  | none => g

/-- The big-blind block of `post_blinds`: seat `pos` is forced to bet the big
blind, which also sets `current_bet`; a failed bet is silently skipped. -/
def postBigBlindAt (g : Game) (pos : Nat) : Game :=
  match g.players.get? pos with
  | some player =>
    match player.bet g.big_blind with
    | Except.ok (p2, _) =>
      { g with players := g.players.set pos p2, pot := g.pot + g.big_blind,
               current_bet := g.big_blind }
    | Except.error _ => g
  | none => g

/-- `post_blinds`: the blind seats are computed from the dealer button, then
the two blocks run in order (the button, seat count, and blind sizes they
read are untouched by the first block). -/
def Game.post_blinds (g : Game) : Game :=
  postBigBlindAt
    (postSmallBlindAt g ((g.dealer_position + 1) % g.players.length))
    ((g.dealer_position + 2) % g.players.length)

/-- One round-robin pass of `deal_hole_cards`: each player in order draws one
card when the deck is nonempty. -/
def dealOneRound : List Player → Deck → List Player × Deck
  | [], deck => ([], deck)
  | p :: ps, deck =>
    match Deck.draw deck with
    | some (card, deck2) =>
      let r := dealOneRound ps deck2
      (p.add_card card :: r.1, r.2)
    | none =>
      let r := dealOneRound ps deck
      (p :: r.1, r.2)

def Game.deal_hole_cards (g : Game) : Game :=
  let r1 := dealOneRound g.players g.deck
  let r2 := dealOneRound r1.1 r1.2
  { g with players := r2.1, deck := r2.2 }

/-- The `iter().enumerate()` scan of `update_active_players`. -/
def activeIdxFrom : Nat → List Player → List Nat
  | _, [] => []
  | i, p :: ps =>
    if p.state = PlayerState.Active ∨ p.state = PlayerState.AllIn then
      i :: activeIdxFrom (i + 1) ps
    else
      activeIdxFrom (i + 1) ps

def Game.update_active_players (g : Game) : Game :=
  { g with active_players := activeIdxFrom 0 g.players }

/-- The reset statements at the top of `start_new_hand`: fresh deck, cleared
board, pot, and bet, PreFlop, every player reset. -/
def resetForHand (g : Game) (newDeck : Deck) : Game :=
  { g with deck := newDeck, community_cards := [], pot := 0,
           current_bet := 0, current_round := BettingRound.PreFlop,
           players := g.players.map Player.reset_for_new_hand }

/-- `self.dealer_position = (self.dealer_position + 1) % self.players.len()` -/
def advanceDealer (g : Game) : Game :=
  { g with dealer_position := (g.dealer_position + 1) % g.players.length }

/-- `self.current_player = (self.dealer_position + 3) % self.players.len()` -/
def setFirstActor (g : Game) : Game :=
  { g with current_player := (g.dealer_position + 3) % g.players.length }

/-- src/game.rs `start_new_hand`, parameterised by the fresh shuffled deck:
the statement sequence of the source, as a composition of its stages. -/
def Game.start_new_hand (g : Game) (newDeck : Deck) : Except String Game :=
  if g.players.length < 2 then
    Except.error "Need at least 2 players to start a hand"
  else
    Except.ok (setFirstActor (Game.update_active_players (Game.deal_hole_cards
      (Game.post_blinds (advanceDealer (resetForHand g newDeck))))))

/-- `deck.draw()` for the burn card: the drawn card is discarded. -/
def burnCard (d : Deck) : Deck :=
  match Deck.draw d with
  | some (_, d2) => d2
  | none => d

/-- `if let Some(card) = self.deck.draw() { self.community_cards.push(card) }` -/
def dealCommunity (d : Deck) (cc : List Card) : Deck × List Card :=
  match Deck.draw d with
  | some (card, d2) => (d2, cc ++ [card])
  | none => (d, cc)

def Game.reset_player_actions (g : Game) : Game :=
  { g with players := g.players.map (fun p => { p with action := none }) }

/-- The `for _ in 0..k` community-dealing loop: each pass draws one card and
pushes it onto the board when the deck is nonempty. -/
def dealCommunityN : Nat → Deck → List Card → Deck × List Card
  | 0, d, cc => (d, cc)
  | n + 1, d, cc =>
    dealCommunityN n (dealCommunity d cc).1 (dealCommunity d cc).2

def Game.deal_flop (g : Game) : Game :=
  if g.current_round = BettingRound.PreFlop then
    Game.reset_player_actions
      { g with deck := (dealCommunityN 3 (burnCard g.deck) g.community_cards).1,
               community_cards :=
                 (dealCommunityN 3 (burnCard g.deck) g.community_cards).2,
               current_round := BettingRound.Flop, current_bet := 0 }
  else g

def Game.deal_turn (g : Game) : Game :=
  if g.current_round = BettingRound.Flop then
    Game.reset_player_actions
      { g with deck := (dealCommunityN 1 (burnCard g.deck) g.community_cards).1,
               community_cards :=
                 (dealCommunityN 1 (burnCard g.deck) g.community_cards).2,
               current_round := BettingRound.Turn, current_bet := 0 }
  else g

def Game.deal_river (g : Game) : Game :=
  if g.current_round = BettingRound.Turn then
    Game.reset_player_actions
      { g with deck := (dealCommunityN 1 (burnCard g.deck) g.community_cards).1,
               community_cards :=
                 (dealCommunityN 1 (burnCard g.deck) g.community_cards).2,
               current_round := BettingRound.River, current_bet := 0 }
  else g

/-- The `iter_mut().enumerate()` scan of `reset_other_player_actions`. -/
def resetOthersFrom (current : Nat) : Nat → List Player → List Player
  | _, [] => []
  | i, p :: ps =>
    (if i ≠ current ∧ p.state = PlayerState.Active then
       { p with action := none }
     else p) :: resetOthersFrom current (i + 1) ps

def Game.reset_other_player_actions (g : Game) (current_player : Nat) : Game :=
  { g with players := resetOthersFrom current_player 0 g.players }

/-- src/game.rs `player_action`. Every error is returned before any state is
written back, so the `Except` embedding carries the unchanged-on-error
semantics of the source. -/
def Game.player_action (g : Game) (player_index : Nat)
    (action : PlayerAction) : Except String Game :=
  match g.players.get? player_index with
  | none => Except.error "Invalid player index"
  | some player =>
    match action with
    | PlayerAction.Fold =>
      Except.ok (Game.update_active_players
        { g with players := g.players.set player_index player.fold })
    | PlayerAction.Check =>
      if g.current_bet > player.chips_in_play then
        Except.error "Cannot check when there\x27s a bet to call"
      else
        Except.ok { g with players := g.players.set player_index player.check }
    | PlayerAction.Call =>
      let call_amount := g.current_bet - player.chips_in_play
      if call_amount > 0 then
        match player.call call_amount with
        | Except.error e => Except.error e
        | Except.ok (p2, _) =>
          Except.ok { g with players := g.players.set player_index p2,
                             pot := g.pot + call_amount }
      else
        Except.ok { g with players := g.players.set player_index player.check }
    | PlayerAction.Raise amount =>
      let total_needed := g.current_bet + amount
      match player.raise amount with
      | Except.error e => Except.error e
      | Except.ok (p2, _) =>
        Except.ok (Game.reset_other_player_actions
          { g with players := g.players.set player_index p2,
                   pot := g.pot + amount, current_bet := total_needed }
          player_index)
    | PlayerAction.AllIn =>
      let r := player.all_in
      let g1 := { g with players := g.players.set player_index r.1,
                         pot := g.pot + r.2 }
      if r.1.chips_in_play > g1.current_bet then
        Except.ok (Game.reset_other_player_actions
          { g1 with current_bet := r.1.chips_in_play } player_index)
      else
        Except.ok g1

/-- The body of the `loop` in `next_player`, with explicit fuel: one iteration
advances the seat circularly and stops when it lands on an Active player. -/
def nextActiveFrom (g : Game) : Nat → Nat → Option Nat
  | 0, _ => none
  | fuel + 1, idx =>
    match g.players.get? ((idx + 1) % g.players.length) with
    | some p =>
      if p.state = PlayerState.Active then some ((idx + 1) % g.players.length)
      else nextActiveFrom g fuel ((idx + 1) % g.players.length)
    | none => nextActiveFrom g fuel ((idx + 1) % g.players.length)

/-- src/game.rs `next_player`: the loop visits every seat within
`players.length` steps, so that much fuel decides it. When no Active player
exists the source loop runs forever; here the fuel runs out and the seat is
left unchanged. -/
def Game.next_player (g : Game) : Game :=
  match nextActiveFrom g g.players.length g.current_player with
  | some j => { g with current_player := j }
  | none => g

/-- The `filter(|p| p.state == PlayerState::Active)` list used by
`is_betting_round_complete`. -/
def Game.activePlayersList (g : Game) : List Player :=
  g.players.filter (fun p => decide (p.state = PlayerState.Active))

def Game.is_betting_round_complete (g : Game) : Bool :=
  let active_players := g.activePlayersList
  if active_players.length ≤ 1 then true
  else
    let first_bet := ((active_players.head?).map Player.chips_in_play).getD 0
    active_players.all
      (fun p => p.action.isSome && decide (p.chips_in_play = first_bet))

/-! ## Helper lemmas about the evaluator -/

/-- A list sorted weakly descending by rank that is a permutation of a strictly
rank-descending list is that list: the sort result is unique when all ranks
are distinct. -/
theorem sorted_perm_strictDesc_eq (d : List Card) :
    ∀ l : List Card, l.Perm d → List.Sorted rankGe l →
      d.Pairwise (fun a b => b.rank.val < a.rank.val) → l = d := by
  induction d with
  | nil =>
    intro l hp _ _
    exact hp.eq_nil
  | cons x d2 ih =>
    intro l hp hs hd
    cases l with
    | nil =>
      have := hp.length_eq
      simp at this
    | cons y l2 =>
      have hyx : y = x := by
        by_contra hne
        have hy_mem : y ∈ x :: d2 := hp.subset (List.mem_cons_self y l2)
        have hy_d2 : y ∈ d2 := by
          rcases List.mem_cons.mp hy_mem with h | h
          · exact absurd h hne
          · exact h
        have hylt : y.rank.val < x.rank.val :=
          (List.pairwise_cons.mp hd).1 y hy_d2
        have hx_mem : x ∈ y :: l2 := hp.symm.subset (List.mem_cons_self x d2)
        rcases List.mem_cons.mp hx_mem with h | h
        · exact hne h.symm
        · have hge : rankGe y x := (List.sorted_cons.mp hs).1 x h
          exact absurd hylt (Nat.not_lt.mpr hge)
      subst hyx
      have hp2 : l2.Perm d2 := hp.cons_inv
      have htail : l2 = d2 :=
        ih l2 hp2 (List.sorted_cons.mp hs).2 (List.pairwise_cons.mp hd).2
      rw [htail]

/-- Evaluating any permutation of a strictly rank-descending list evaluates
the classification body on that list. -/
theorem evaluate_five_of_perm (cards d : List Card) (hp : cards.Perm d)
    (hd : d.Pairwise (fun a b => b.rank.val < a.rank.val)) :
    evaluate_five cards = evaluateSorted d := by
  unfold evaluate_five
  congr 1
  exact sorted_perm_strictDesc_eq d (sortByRankDesc cards)
    ((List.perm_insertionSort rankGe cards).trans hp)
    (List.sorted_insertionSort rankGe cards) hd

/-! ## Claim C1 -/

/-- A wheel straight of mixed suits: A spades, 2 hearts, 3 diamonds,
4 clubs, 5 spades. -/
def wheelHand : List Card :=
  [⟨Rank.Ace, Suit.Spades⟩, ⟨Rank.Two, Suit.Hearts⟩, ⟨Rank.Three, Suit.Diamonds⟩,
   ⟨Rank.Four, Suit.Clubs⟩, ⟨Rank.Five, Suit.Spades⟩]

/-- A six-high straight of mixed suits. -/
def sixHighHand : List Card :=
  [⟨Rank.Two, Suit.Spades⟩, ⟨Rank.Three, Suit.Hearts⟩, ⟨Rank.Four, Suit.Diamonds⟩,
   ⟨Rank.Five, Suit.Clubs⟩, ⟨Rank.Six, Suit.Spades⟩]

/-- C1: the wheel {A,2,3,4,5} of mixed suits is classified Straight and
`straight_high_card` reports Five, as the claim says; but the evaluator
keeps the cards sorted descending with the Ace first and `Ord` compares
those raw card lists, so the wheel compares *greater* than the {2,3,4,5,6}
straight, contradicting the claimed strict ordering below it. -/
theorem wheel_straight_ranked_above_six_high :
    (evaluate_five wheelHand).rank = HandRank.Straight ∧
    straight_high_card wheelHand = some Rank.Five ∧
    (evaluate_five sixHighHand).rank = HandRank.Straight ∧
    EvaluatedHand.cmp (evaluate_five wheelHand) (evaluate_five sixHighHand) =
      Ordering.gt := by
  decide

/-! ## Claim C6 -/

/-- The strictly descending five consecutive suited cards with low rank value
`v` (so high card value `v + 4`); `v` ranges over 2..10. -/
def straightCards : Nat → Suit → List Card
  | 2, s => [⟨Rank.Six, s⟩, ⟨Rank.Five, s⟩, ⟨Rank.Four, s⟩, ⟨Rank.Three, s⟩, ⟨Rank.Two, s⟩]
  | 3, s => [⟨Rank.Seven, s⟩, ⟨Rank.Six, s⟩, ⟨Rank.Five, s⟩, ⟨Rank.Four, s⟩, ⟨Rank.Three, s⟩]
  | 4, s => [⟨Rank.Eight, s⟩, ⟨Rank.Seven, s⟩, ⟨Rank.Six, s⟩, ⟨Rank.Five, s⟩, ⟨Rank.Four, s⟩]
  | 5, s => [⟨Rank.Nine, s⟩, ⟨Rank.Eight, s⟩, ⟨Rank.Seven, s⟩, ⟨Rank.Six, s⟩, ⟨Rank.Five, s⟩]
  | 6, s => [⟨Rank.Ten, s⟩, ⟨Rank.Nine, s⟩, ⟨Rank.Eight, s⟩, ⟨Rank.Seven, s⟩, ⟨Rank.Six, s⟩]
  | 7, s => [⟨Rank.Jack, s⟩, ⟨Rank.Ten, s⟩, ⟨Rank.Nine, s⟩, ⟨Rank.Eight, s⟩, ⟨Rank.Seven, s⟩]
  | 8, s => [⟨Rank.Queen, s⟩, ⟨Rank.Jack, s⟩, ⟨Rank.Ten, s⟩, ⟨Rank.Nine, s⟩, ⟨Rank.Eight, s⟩]
  | 9, s => [⟨Rank.King, s⟩, ⟨Rank.Queen, s⟩, ⟨Rank.Jack, s⟩, ⟨Rank.Ten, s⟩, ⟨Rank.Nine, s⟩]
  | 10, s => [⟨Rank.Ace, s⟩, ⟨Rank.King, s⟩, ⟨Rank.Queen, s⟩, ⟨Rank.Jack, s⟩, ⟨Rank.Ten, s⟩]
  | _, _ => []

/-- C6: every 5-card hand whose ranks are five consecutive values (low value
`v`, high value `v + 4`) and whose cards all share one suit evaluates to
StraightFlush, except the Ace-high run {10,J,Q,K,A} which evaluates to
RoyalFlush. -/
theorem straight_flush_classification (cards : List Card) (v : Nat) (s : Suit)
    (h2 : 2 ≤ v) (h10 : v ≤ 10) (hperm : cards.Perm (straightCards v s)) :
    (evaluate_five cards).rank =
      if v = 10 then HandRank.RoyalFlush else HandRank.StraightFlush := by
  have hd : (straightCards v s).Pairwise (fun a b => b.rank.val < a.rank.val) := by
    interval_cases v <;> cases s <;> decide
  rw [evaluate_five_of_perm cards (straightCards v s) hperm hd]
  interval_cases v <;> cases s <;> decide

/-- Closed instance of C6 discharging its hypotheses: a queen-high heart
straight flush and the royal flush in spades. -/
theorem straight_flush_classification_witness :
    (evaluate_five [⟨Rank.Eight, Suit.Hearts⟩, ⟨Rank.Queen, Suit.Hearts⟩,
        ⟨Rank.Ten, Suit.Hearts⟩, ⟨Rank.Nine, Suit.Hearts⟩,
        ⟨Rank.Jack, Suit.Hearts⟩]).rank = HandRank.StraightFlush ∧
    (evaluate_five [⟨Rank.Ten, Suit.Spades⟩, ⟨Rank.Ace, Suit.Spades⟩,
        ⟨Rank.King, Suit.Spades⟩, ⟨Rank.Jack, Suit.Spades⟩,
        ⟨Rank.Queen, Suit.Spades⟩]).rank = HandRank.RoyalFlush := by
  constructor
  · exact straight_flush_classification _ 8 Suit.Hearts (by decide) (by decide)
      (by decide)
  · exact straight_flush_classification _ 10 Suit.Spades (by decide) (by decide)
      (by decide)

/-! ## Claim C2 -/

/-- C2: `is_betting_round_complete` is true exactly when at most one player is
in state Active, or every Active player has a recorded action and all Active
players have equal chips_in_play; Folded and AllIn players are excluded by the
Active filter, and one remaining Active player always completes the round. -/
theorem betting_round_complete_iff (g : Game) :
    (g.is_betting_round_complete = true ↔
      g.activePlayersList.length ≤ 1 ∨
        (∀ p ∈ g.activePlayersList, p.action.isSome = true ∧
          ∀ q ∈ g.activePlayersList, p.chips_in_play = q.chips_in_play)) ∧
    (g.activePlayersList.length = 1 → g.is_betting_round_complete = true) := by
  constructor
  · unfold Game.is_betting_round_complete
    by_cases h : g.activePlayersList.length ≤ 1
    · simp [h]
    · simp only [h, if_false]
      cases hl : g.activePlayersList with
      | nil => rw [hl] at h; simp at h
      | cons p0 rest =>
        simp only [List.head?_cons, Option.map_some', Option.getD_some,
          List.all_eq_true, Bool.and_eq_true, decide_eq_true_eq]
        constructor
        · intro hall
          refine Or.inr ?_
          intro p hp
          refine ⟨(hall p hp).1, ?_⟩
          intro q hq
          rw [(hall p hp).2, (hall q hq).2]
        · intro hfa
          rcases hfa with hfa | hfa
          · exact hfa.elim
          · intro p hp
            have hp0 : p0 ∈ p0 :: rest := List.mem_cons_self p0 rest
            exact ⟨(hfa p hp).1, (hfa p hp).2 p0 hp0⟩
  · intro h1
    unfold Game.is_betting_round_complete
    simp [h1]

/-- A concrete game with exactly one Active player (others Folded and AllIn,
with unequal chips and no recorded actions), used to discharge C2. -/
def gOneActive : Game :=
  { players :=
      [{ Player.new "a" 50 with state := PlayerState.Folded, chips_in_play := 3 },
       { Player.new "b" 60 with state := PlayerState.AllIn, chips_in_play := 7 },
       { Player.new "d" 70 with chips_in_play := 1 }],
    deck := [], current_player := 2, current_round := BettingRound.PreFlop,
    community_cards := [], pot := 11, current_bet := 7, dealer_position := 0,
    small_blind := 5, big_blind := 10, active_players := [1, 2] }

/-- Closed instance of C2: with exactly one Active player the round is
complete regardless of chip parity or missing actions. -/
theorem betting_round_complete_witness :
    gOneActive.is_betting_round_complete = true :=
  (betting_round_complete_iff gOneActive).2 (by decide)

/-! ## Claim C9 -/

/-- When no player is Active, every iteration of the `next_player` loop fails
to stop: the fuelled loop body returns none for all fuel. -/
theorem nextActiveFrom_none (g : Game)
    (hno : ∀ p ∈ g.players, p.state ≠ PlayerState.Active) :
    ∀ fuel idx, nextActiveFrom g fuel idx = none := by
  intro fuel
  induction fuel with
  | zero => intro idx; rfl
  | succ n ih =>
    intro idx
    unfold nextActiveFrom
    cases hq : g.players.get? ((idx + 1) % g.players.length) with
    | none => exact ih _
    | some p =>
      have hne := hno p (List.get?_mem hq)
      simp only [hne, if_false]
      exact ih _

/-- There is always a cyclic step count between 1 and `len` reaching any
in-range seat `a` from `idx`. -/
theorem exists_step_to (len idx a : Nat) (ha : a < len) :
    ∃ s, 1 ≤ s ∧ s ≤ len ∧ (idx + s) % len = a := by
  have hr : idx % len < len := Nat.mod_lt _ (by omega)
  rcases Nat.lt_or_ge (idx % len) a with h | h
  · refine ⟨a - idx % len, by omega, by omega, ?_⟩
    rw [← Nat.mod_add_mod]
    have heq : idx % len + (a - idx % len) = a := by omega
    rw [heq, Nat.mod_eq_of_lt ha]
  · refine ⟨len + a - idx % len, by omega, by omega, ?_⟩
    rw [← Nat.mod_add_mod]
    have heq : idx % len + (len + a - idx % len) = len + a := by omega
    rw [heq, Nat.add_mod_left, Nat.mod_eq_of_lt ha]

/-- If seat `a` holds an Active player reachable in `s` cyclic steps, the
fuelled loop with at least `s` fuel stops on an Active seat. -/
theorem nextActiveFrom_finds (g : Game) (a : Nat) (p : Player)
    (ha : g.players.get? a = some p) (hact : p.state = PlayerState.Active) :
    ∀ s idx, 1 ≤ s → (idx + s) % g.players.length = a →
      ∀ fuel, s ≤ fuel →
        ∃ j q, nextActiveFrom g fuel idx = some j ∧
          g.players.get? j = some q ∧ q.state = PlayerState.Active := by
  intro s
  induction s with
  | zero =>
    intro idx h1
    omega
  | succ n ih =>
    intro idx _ hmod fuel hfuel
    have halen : a < g.players.length := by
      rcases List.get?_eq_some.mp ha with ⟨h, _⟩
      exact h
    cases fuel with
    | zero => omega
    | succ m =>
      unfold nextActiveFrom
      cases hq : g.players.get? ((idx + 1) % g.players.length) with
      | none =>
        have hlen0 : 0 < g.players.length := by omega
        have : g.players.length ≤ (idx + 1) % g.players.length :=
          List.get?_eq_none.mp hq
        have := Nat.mod_lt (idx + 1) hlen0
        omega
      | some q =>
        by_cases hqa : q.state = PlayerState.Active
        · exact ⟨(idx + 1) % g.players.length, q, by simp [hqa], hq, hqa⟩
        · simp only [hqa, if_false]
          have hn1 : 1 ≤ n := by
            by_contra hn
            have hn0 : n = 0 := by omega
            subst hn0
            rw [hmod] at hq
            rw [ha] at hq
            cases hq
            exact hqa hact
          have hmod2 : ((idx + 1) % g.players.length + n) % g.players.length = a := by
            rw [Nat.mod_add_mod]
            have : idx + 1 + n = idx + (n + 1) := by omega
            rw [this, hmod]
          exact ih ((idx + 1) % g.players.length) hn1 hmod2 m (by omega)

/-- C9: when some player is Active, `next_player` terminates and leaves
`current_player` on an Active seat; when no player is Active, the loop body
never exits (returns none for every fuel), so the Active-player precondition
is required for totality. -/
theorem next_player_terminates_iff_active (g : Game) :
    ((∃ a p, g.players.get? a = some p ∧ p.state = PlayerState.Active) →
      ∃ q, g.players.get? g.next_player.current_player = some q ∧
        q.state = PlayerState.Active) ∧
    ((∀ p ∈ g.players, p.state ≠ PlayerState.Active) →
      ∀ fuel idx, nextActiveFrom g fuel idx = none) := by
  constructor
  · rintro ⟨a, p, ha, hact⟩
    have halen : a < g.players.length := by
      rcases List.get?_eq_some.mp ha with ⟨h, _⟩
      exact h
    obtain ⟨s, hs1, hs2, hs3⟩ :=
      exists_step_to g.players.length g.current_player a halen
    obtain ⟨j, q, hj, hq, hqa⟩ :=
      nextActiveFrom_finds g a p ha hact s g.current_player hs1 hs3
        g.players.length hs2
    unfold Game.next_player
    rw [hj]
    exact ⟨q, hq, hqa⟩
  · exact nextActiveFrom_none g

/-- A concrete game whose only Active player sits at seat 1 (seat 0 Folded),
and one with no Active player at all, for the two directions of C9. -/
def gSeekActive : Game :=
  { gOneActive with players :=
      [{ Player.new "a" 50 with state := PlayerState.Folded },
       Player.new "b" 60] }

def gNoneActive : Game :=
  { gOneActive with players :=
      [{ Player.new "a" 50 with state := PlayerState.Folded },
       { Player.new "b" 60 with state := PlayerState.AllIn }] }

/-- Closed instance of C9 discharging both hypotheses on concrete games. -/
theorem next_player_witness :
    (∃ q, gSeekActive.players.get? gSeekActive.next_player.current_player =
        some q ∧ q.state = PlayerState.Active) ∧
    nextActiveFrom gNoneActive 2 0 = none := by
  constructor
  · exact (next_player_terminates_iff_active gSeekActive).1
      ⟨1, Player.new "b" 60, rfl, rfl⟩
  · exact (next_player_terminates_iff_active gNoneActive).2 (by decide) 2 0

/-! ## Helper lemmas about players and state updates -/

/-- Total balance of a seat list. -/
def sumBalance (ps : List Player) : ℚ := (ps.map Player.balance).sum

/-- Every Player field except hole_cards, for the hole-card-dealing frame. -/
def noCardsView (p : Player) :
    String × ℚ × ℚ × PlayerState × Option PlayerAction × ℚ :=
  (p.name, p.balance, p.chips_in_play, p.state, p.action, p.hand_strength)

/-- Every Player field except action, for the street-advance frame. -/
def noActionView (p : Player) :
    String × ℚ × List Card × ℚ × ℚ × PlayerState :=
  (p.name, p.balance, p.hole_cards, p.hand_strength, p.chips_in_play, p.state)

/-- Inversion of a successful `Player.bet`. -/
theorem bet_ok (p : Player) (amount : ℚ) (p2 : Player) (r : ℚ)
    (h : p.bet amount = Except.ok (p2, r)) :
    p2 = { p with balance := p.balance - amount,
                  chips_in_play := p.chips_in_play + amount } ∧
      r = amount ∧ 0 < amount ∧ amount ≤ p.balance := by
  unfold Player.bet at h
  by_cases h1 : amount > p.balance
  · simp [h1] at h
  · by_cases h2 : amount ≤ 0
    · simp [h1, h2] at h
    · simp only [h1, if_false, h2, Except.ok.injEq, Prod.mk.injEq] at h
      exact ⟨h.1.symm, h.2.symm, lt_of_not_le h2, le_of_not_lt h1⟩

/-- Inversion of a successful `Player.call`. -/
theorem call_ok (p : Player) (amount : ℚ) (p2 : Player) (r : ℚ)
    (h : p.call amount = Except.ok (p2, r)) :
    p2 = { p with balance := p.balance - amount,
                  chips_in_play := p.chips_in_play + amount,
                  action := some PlayerAction.Call } ∧
      r = amount ∧ 0 < amount ∧ amount ≤ p.balance := by
  unfold Player.call at h
  cases hbet : p.bet amount with
  | error e => rw [hbet] at h; cases h
  | ok pr =>
    obtain ⟨p3, r3⟩ := pr
    rw [hbet] at h
    obtain ⟨hp3, hr3, h0, hle⟩ := bet_ok p amount p3 r3 hbet
    simp only [Except.ok.injEq, Prod.mk.injEq] at h
    refine ⟨?_, h.2.symm, h0, hle⟩
    rw [← h.1, hp3]

/-- Inversion of a successful `Player.raise`. -/
theorem raise_ok (p : Player) (amount : ℚ) (p2 : Player) (r : ℚ)
    (h : p.raise amount = Except.ok (p2, r)) :
    p2 = { p with balance := p.balance - amount,
                  chips_in_play := p.chips_in_play + amount,
                  action := some (PlayerAction.Raise amount) } ∧
      r = amount ∧ 0 < amount ∧ amount ≤ p.balance := by
  unfold Player.raise at h
  cases hbet : p.bet amount with
  | error e => rw [hbet] at h; cases h
  | ok pr =>
    obtain ⟨p3, r3⟩ := pr
    rw [hbet] at h
    obtain ⟨hp3, hr3, h0, hle⟩ := bet_ok p amount p3 r3 hbet
    simp only [Except.ok.injEq, Prod.mk.injEq] at h
    refine ⟨?_, h.2.symm, h0, hle⟩
    rw [← h.1, hp3]

/-- Replacing the element at a set index shifts a mapped sum by the
difference of the images. -/
theorem sum_map_set (f : Player → ℚ) :
    ∀ (l : List Player) (i : Nat) (p a : Player), l.get? i = some p →
      ((l.set i a).map f).sum + f p = (l.map f).sum + f a := by
  intro l
  induction l with
  | nil =>
    intro i p a h
    simp at h
  | cons x xs ih =>
    intro i p a h
    cases i with
    | zero =>
      injection h with h
      subst h
      simp only [List.set, List.map_cons, List.sum_cons]
      ring
    | succ n =>
      simp only [List.get?] at h
      simp only [List.set, List.map_cons, List.sum_cons]
      have hih := ih n p a h
      linarith

/-- Dealing one round of hole cards changes nothing but hole_cards. -/
theorem dealOneRound_view :
    ∀ (ps : List Player) (d : Deck) (i : Nat),
      ((dealOneRound ps d).1.get? i).map noCardsView =
        (ps.get? i).map noCardsView := by
  intro ps
  induction ps with
  | nil => intro d i; rfl
  | cons p ps ih =>
    intro d i
    unfold dealOneRound
    cases hd : Deck.draw d with
    | some cd =>
      obtain ⟨c, d2⟩ := cd
      cases i with
      | zero => rfl
      | succ n => exact ih d2 n
    | none =>
      cases i with
      | zero => rfl
      | succ n => exact ih d n

/-- Dealing one round of hole cards preserves the balances list. -/
theorem dealOneRound_map_balance :
    ∀ (ps : List Player) (d : Deck),
      (dealOneRound ps d).1.map Player.balance = ps.map Player.balance := by
  intro ps
  induction ps with
  | nil => intro d; rfl
  | cons p ps ih =>
    intro d
    unfold dealOneRound
    cases hd : Deck.draw d with
    | some cd =>
      obtain ⟨c, d2⟩ := cd
      simp only [List.map_cons]
      rw [ih d2]
      rfl
    | none =>
      simp only [List.map_cons]
      rw [ih d]

/-- Pointwise description of `reset_other_player_actions`. -/
theorem resetOthersFrom_get? (cur : Nat) :
    ∀ (ps : List Player) (base j : Nat),
      (resetOthersFrom cur base ps).get? j =
        (ps.get? j).map (fun p =>
          if base + j ≠ cur ∧ p.state = PlayerState.Active then
            { p with action := none }
          else p) := by
  intro ps
  induction ps with
  | nil => intro base j; simp [resetOthersFrom]
  | cons p ps ih =>
    intro base j
    cases j with
    | zero => simp [resetOthersFrom]
    | succ n =>
      simp only [resetOthersFrom, List.get?]
      rw [ih (base + 1) n]
      have harith : base + 1 + n = base + (n + 1) := by omega
      rw [harith]

/-- `reset_other_player_actions` preserves the balances list. -/
theorem resetOthersFrom_map_balance (cur : Nat) :
    ∀ (ps : List Player) (base : Nat),
      (resetOthersFrom cur base ps).map Player.balance = ps.map Player.balance := by
  intro ps
  induction ps with
  | nil => intro base; rfl
  | cons p ps ih =>
    intro base
    simp only [resetOthersFrom, List.map_cons]
    rw [ih (base + 1)]
    congr 1
    split <;> rfl

/-- The balance projection ignores the conditional action clearing. -/
theorem balance_if_resetAction (c : Prop) [Decidable c] (p : Player) :
    (if c then { p with action := none } else p).balance = p.balance := by
  split <;> rfl

/-- Clearing every action (`reset_player_actions`) touches nothing else. -/
theorem map_resetAction_view (ps : List Player) (i : Nat) :
    ((ps.map (fun p => { p with action := none })).get? i).map noActionView =
      (ps.get? i).map noActionView := by
  rw [List.get?_map]
  cases ps.get? i <;> rfl

/-- After `reset_player_actions` every present seat's action is none. -/
theorem map_resetAction_action (ps : List Player) (i : Nat) :
    ((ps.map (fun p => { p with action := none })).get? i).map Player.action =
      (ps.get? i).map (fun _ => none) := by
  rw [List.get?_map]
  cases ps.get? i <;> rfl

/-- Resetting a player for a new hand preserves the balance. -/
theorem map_reset_map_balance (ps : List Player) :
    (ps.map Player.reset_for_new_hand).map Player.balance = ps.map Player.balance := by
  induction ps with
  | nil => rfl
  | cons p ps ih =>
    simp only [List.map_cons, ih]
    rfl

/-- One community-card deal appends to the board. -/
theorem dealCommunity_snd_append (d : Deck) (cc : List Card) :
    ∃ e, (dealCommunity d cc).2 = cc ++ e := by
  unfold dealCommunity
  cases Deck.draw d with
  | some p => exact ⟨[p.1], rfl⟩
  | none => exact ⟨[], (List.append_nil cc).symm⟩

/-- Case equations for the small-blind block. -/
theorem postSmallBlindAt_none (g : Game) (pos : Nat)
    (h : g.players.get? pos = none) : postSmallBlindAt g pos = g := by
  simp only [postSmallBlindAt, h]

theorem postSmallBlindAt_err (g : Game) (pos : Nat) (player : Player)
    (e : String) (h : g.players.get? pos = some player)
    (hb : player.bet g.small_blind = Except.error e) :
    postSmallBlindAt g pos = g := by
  simp only [postSmallBlindAt, h, hb]

theorem postSmallBlindAt_ok (g : Game) (pos : Nat) (player p2 : Player) (r : ℚ)
    (h : g.players.get? pos = some player)
    (hb : player.bet g.small_blind = Except.ok (p2, r)) :
    postSmallBlindAt g pos =
      { g with players := g.players.set pos p2, pot := g.pot + g.small_blind } := by
  simp only [postSmallBlindAt, h, hb]

/-- Case equations for the big-blind block. -/
theorem postBigBlindAt_none (g : Game) (pos : Nat)
    (h : g.players.get? pos = none) : postBigBlindAt g pos = g := by
  simp only [postBigBlindAt, h]

theorem postBigBlindAt_err (g : Game) (pos : Nat) (player : Player)
    (e : String) (h : g.players.get? pos = some player)
    (hb : player.bet g.big_blind = Except.error e) :
    postBigBlindAt g pos = g := by
  simp only [postBigBlindAt, h, hb]

theorem postBigBlindAt_ok (g : Game) (pos : Nat) (player p2 : Player) (r : ℚ)
    (h : g.players.get? pos = some player)
    (hb : player.bet g.big_blind = Except.ok (p2, r)) :
    postBigBlindAt g pos =
      { g with players := g.players.set pos p2, pot := g.pot + g.big_blind,
               current_bet := g.big_blind } := by
  simp only [postBigBlindAt, h, hb]

/-- A successful small blind moves the blind from the seat balance to the
pot, leaving pot-plus-balances unchanged; a skipped blind changes nothing. -/
theorem postSmallBlindAt_pot_balance (g : Game) (pos : Nat) :
    (postSmallBlindAt g pos).pot + sumBalance (postSmallBlindAt g pos).players =
      g.pot + sumBalance g.players := by
  cases hget : g.players.get? pos with
  | none => rw [postSmallBlindAt_none g pos hget]
  | some player =>
    cases hbet : player.bet g.small_blind with
    | error e => rw [postSmallBlindAt_err g pos player e hget hbet]
    | ok pr =>
      obtain ⟨p2, r⟩ := pr
      rw [postSmallBlindAt_ok g pos player p2 r hget hbet]
      obtain ⟨hp2, hr, h0, hle⟩ := bet_ok player g.small_blind p2 r hbet
      have hsum := sum_map_set Player.balance g.players pos player p2 hget
      have hbal : p2.balance = player.balance - g.small_blind := by rw [hp2]
      unfold sumBalance
      simp only
      linarith

/-- Same accounting fact for the big-blind block. -/
theorem postBigBlindAt_pot_balance (g : Game) (pos : Nat) :
    (postBigBlindAt g pos).pot + sumBalance (postBigBlindAt g pos).players =
      g.pot + sumBalance g.players := by
  cases hget : g.players.get? pos with
  | none => rw [postBigBlindAt_none g pos hget]
  | some player =>
    cases hbet : player.bet g.big_blind with
    | error e => rw [postBigBlindAt_err g pos player e hget hbet]
    | ok pr =>
      obtain ⟨p2, r⟩ := pr
      rw [postBigBlindAt_ok g pos player p2 r hget hbet]
      obtain ⟨hp2, hr, h0, hle⟩ := bet_ok player g.big_blind p2 r hbet
      have hsum := sum_map_set Player.balance g.players pos player p2 hget
      have hbal : p2.balance = player.balance - g.big_blind := by rw [hp2]
      unfold sumBalance
      simp only
      linarith

/-- Posting the blinds moves chips from balances to the pot and nowhere
else: pot-plus-balances is invariant. -/
theorem post_blinds_pot_balance (g : Game) :
    (g.post_blinds).pot + sumBalance (g.post_blinds).players =
      g.pot + sumBalance g.players := by
  unfold Game.post_blinds
  rw [postBigBlindAt_pot_balance, postSmallBlindAt_pot_balance]

/-- Dealing hole cards never touches the pot. -/
theorem deal_hole_cards_pot (g : Game) : (g.deal_hole_cards).pot = g.pot := rfl

/-- Dealing hole cards never touches balances. -/
theorem deal_hole_cards_balance (g : Game) :
    (g.deal_hole_cards).players.map Player.balance =
      g.players.map Player.balance := by
  unfold Game.deal_hole_cards
  simp only
  rw [dealOneRound_map_balance, dealOneRound_map_balance]

/-- Inversion of a successful `start_new_hand`. -/
theorem start_new_hand_ok_eq (g : Game) (d : Deck) (g2 : Game)
    (h : g.start_new_hand d = Except.ok g2) :
    ¬ g.players.length < 2 ∧
      g2 = setFirstActor (Game.update_active_players (Game.deal_hole_cards
        (Game.post_blinds (advanceDealer (resetForHand g d))))) := by
  unfold Game.start_new_hand at h
  by_cases hlen : g.players.length < 2
  · rw [if_pos hlen] at h
    cases h
  · rw [if_neg hlen] at h
    injection h with h
    exact ⟨hlen, h.symm⟩

/-! ## Case equations for `player_action` -/

theorem player_action_oob (g : Game) (i : Nat) (a : PlayerAction)
    (h : g.players.get? i = none) :
    g.player_action i a = Except.error "Invalid player index" := by
  simp only [Game.player_action, h]

theorem player_action_fold (g : Game) (i : Nat) (player : Player)
    (h : g.players.get? i = some player) :
    g.player_action i PlayerAction.Fold =
      Except.ok (Game.update_active_players
        { g with players := g.players.set i player.fold }) := by
  simp only [Game.player_action, h]

theorem player_action_check_err (g : Game) (i : Nat) (player : Player)
    (h : g.players.get? i = some player)
    (hb : g.current_bet > player.chips_in_play) :
    g.player_action i PlayerAction.Check =
      Except.error "Cannot check when there\x27s a bet to call" := by
  simp only [Game.player_action, h]
  rw [if_pos hb]

theorem player_action_check_ok (g : Game) (i : Nat) (player : Player)
    (h : g.players.get? i = some player)
    (hb : ¬ g.current_bet > player.chips_in_play) :
    g.player_action i PlayerAction.Check =
      Except.ok { g with players := g.players.set i player.check } := by
  simp only [Game.player_action, h]
  rw [if_neg hb]

theorem player_action_call_err (g : Game) (i : Nat) (player : Player)
    (e : String) (h : g.players.get? i = some player)
    (hpos : 0 < g.current_bet - player.chips_in_play)
    (hc : player.call (g.current_bet - player.chips_in_play) = Except.error e) :
    g.player_action i PlayerAction.Call = Except.error e := by
  simp only [Game.player_action, h]
  rw [if_pos hpos, hc]

theorem player_action_call_ok (g : Game) (i : Nat) (player p2 : Player)
    (r : ℚ) (h : g.players.get? i = some player)
    (hpos : 0 < g.current_bet - player.chips_in_play)
    (hc : player.call (g.current_bet - player.chips_in_play) =
      Except.ok (p2, r)) :
    g.player_action i PlayerAction.Call =
      Except.ok { g with players := g.players.set i p2,
                         pot := g.pot + (g.current_bet - player.chips_in_play) } := by
  simp only [Game.player_action, h]
  rw [if_pos hpos, hc]

theorem player_action_call_check (g : Game) (i : Nat) (player : Player)
    (h : g.players.get? i = some player)
    (hnp : ¬ 0 < g.current_bet - player.chips_in_play) :
    g.player_action i PlayerAction.Call =
      Except.ok { g with players := g.players.set i player.check } := by
  simp only [Game.player_action, h]
  rw [if_neg hnp]

theorem player_action_raise_err (g : Game) (i : Nat) (player : Player)
    (amount : ℚ) (e : String) (h : g.players.get? i = some player)
    (hr : player.raise amount = Except.error e) :
    g.player_action i (PlayerAction.Raise amount) = Except.error e := by
  simp only [Game.player_action, h]
  rw [hr]

theorem player_action_raise_ok (g : Game) (i : Nat) (player p2 : Player)
    (amount r : ℚ) (h : g.players.get? i = some player)
    (hr : player.raise amount = Except.ok (p2, r)) :
    g.player_action i (PlayerAction.Raise amount) =
      Except.ok (Game.reset_other_player_actions
        { g with players := g.players.set i p2, pot := g.pot + amount,
                 current_bet := g.current_bet + amount } i) := by
  simp only [Game.player_action, h]
  rw [hr]

theorem player_action_allin_high (g : Game) (i : Nat) (player : Player)
    (h : g.players.get? i = some player)
    (hgt : (player.all_in).1.chips_in_play > g.current_bet) :
    g.player_action i PlayerAction.AllIn =
      Except.ok (Game.reset_other_player_actions
        { g with players := g.players.set i (player.all_in).1,
                 pot := g.pot + (player.all_in).2,
                 current_bet := (player.all_in).1.chips_in_play } i) := by
  simp only [Game.player_action, h]
  rw [if_pos hgt]

theorem player_action_allin_low (g : Game) (i : Nat) (player : Player)
    (h : g.players.get? i = some player)
    (hng : ¬ (player.all_in).1.chips_in_play > g.current_bet) :
    g.player_action i PlayerAction.AllIn =
      Except.ok { g with players := g.players.set i (player.all_in).1,
                         pot := g.pot + (player.all_in).2 } := by
  simp only [Game.player_action, h]
  rw [if_neg hng]

/-! ## Claim C3 -/

/-- The acting seat after a raise keeps its just-set player record:
`reset_other_player_actions` skips the acting index. -/
theorem playerAt_resetOthers_set_self (g : Game) (i : Nat) (p2 : Player)
    (hplen : i < g.players.length) (pot2 bet2 : ℚ) :
    playerAt (Game.reset_other_player_actions
      { g with players := g.players.set i p2, pot := pot2,
               current_bet := bet2 } i) i = p2 := by
  unfold playerAt Game.reset_other_player_actions
  simp only
  rw [resetOthersFrom_get? i (g.players.set i p2) 0 i]
  rw [List.get?_set_eq_of_lt _ hplen]
  simp

/-- The acting seat after a plain set (no action reset). -/
theorem playerAt_set_self (g : Game) (i : Nat) (p2 : Player)
    (hplen : i < g.players.length) :
    (g.players.set i p2).get? i = some p2 :=
  List.get?_set_eq_of_lt _ hplen

/-- C3: within one hand the pot is exactly the chips moved out of balances:
after a successful `start_new_hand` the pot equals the posted blinds (the
total drop in balances); every successful `player_action` grows the pot by
exactly the acting seat's balance drop (zero for Fold and Check), never
decreasing it while balances are nonnegative; and the street deals preserve
the pot, so it is monotone until the next `start_new_hand` resets it. -/
theorem pot_accounting :
    (∀ g d g2, Game.start_new_hand g d = Except.ok g2 →
      g2.pot = sumBalance g.players - sumBalance g2.players) ∧
    (∀ g i a g2, Game.player_action g i a = Except.ok g2 →
      g2.pot = g.pot + ((playerAt g i).balance - (playerAt g2 i).balance) ∧
      (0 ≤ (playerAt g i).balance → g.pot ≤ g2.pot) ∧
      ((a = PlayerAction.Fold ∨ a = PlayerAction.Check) → g2.pot = g.pot)) ∧
    (∀ g : Game, (Game.deal_flop g).pot = g.pot ∧
      (Game.deal_turn g).pot = g.pot ∧ (Game.deal_river g).pot = g.pot) := by
  refine ⟨?_, ?_, ?_⟩
  · intro g d g2 h
    obtain ⟨hlen, hg2⟩ := start_new_hand_ok_eq g d g2 h
    subst hg2
    have hpost := post_blinds_pot_balance (advanceDealer (resetForHand g d))
    have hresetbal : sumBalance (resetForHand g d).players = sumBalance g.players := by
      unfold sumBalance resetForHand
      simp only
      rw [map_reset_map_balance]
    have hdb : sumBalance (Game.deal_hole_cards (Game.post_blinds
        (advanceDealer (resetForHand g d)))).players =
        sumBalance (Game.post_blinds (advanceDealer (resetForHand g d))).players := by
      unfold sumBalance
      rw [deal_hole_cards_balance]
    have hadvpot : (advanceDealer (resetForHand g d)).pot = 0 := rfl
    have hadvbal : sumBalance (advanceDealer (resetForHand g d)).players =
        sumBalance (resetForHand g d).players := rfl
    show (Game.deal_hole_cards (Game.post_blinds
        (advanceDealer (resetForHand g d)))).pot =
      sumBalance g.players - sumBalance (Game.deal_hole_cards (Game.post_blinds
        (advanceDealer (resetForHand g d)))).players
    rw [deal_hole_cards_pot, hdb]
    linarith
  · intro g i a g2 h
    cases hget : g.players.get? i with
    | none =>
      rw [player_action_oob g i a hget] at h
      cases h
    | some player =>
      have hplen : i < g.players.length := by
        rcases List.get?_eq_some.mp hget with ⟨hh, _⟩
        exact hh
      have hpAt : playerAt g i = player := by
        unfold playerAt
        rw [hget]
        rfl
      cases a with
      | Fold =>
        rw [player_action_fold g i player hget] at h
        injection h with h
        subst h
        have hAt2 : playerAt (Game.update_active_players
            { g with players := g.players.set i player.fold }) i = player.fold := by
          unfold playerAt Game.update_active_players
          simp only
          rw [playerAt_set_self g i player.fold hplen]
          rfl
        rw [hAt2, hpAt]
        refine ⟨?_, ?_, ?_⟩
        · show g.pot = g.pot + (player.balance - player.balance)
          ring
        · intro _
          show g.pot ≤ g.pot
          exact le_refl _
        · intro _
          rfl
      | Check =>
        by_cases hb : g.current_bet > player.chips_in_play
        · rw [player_action_check_err g i player hget hb] at h
          cases h
        · rw [player_action_check_ok g i player hget hb] at h
          injection h with h
          subst h
          have hAt2 : playerAt { g with players := g.players.set i player.check } i =
              player.check := by
            unfold playerAt
            rw [playerAt_set_self g i player.check hplen]
            rfl
          rw [hAt2, hpAt]
          refine ⟨?_, ?_, ?_⟩
          · show g.pot = g.pot + (player.balance - player.balance)
            ring
          · intro _
            show g.pot ≤ g.pot
            exact le_refl _
          · intro _
            rfl
      | Call =>
        by_cases hpos : 0 < g.current_bet - player.chips_in_play
        · cases hc : player.call (g.current_bet - player.chips_in_play) with
          | error e =>
            rw [player_action_call_err g i player e hget hpos hc] at h
            cases h
          | ok pr =>
            obtain ⟨p2, r⟩ := pr
            rw [player_action_call_ok g i player p2 r hget hpos hc] at h
            injection h with h
            subst h
            obtain ⟨hp2, hr, h0, hle⟩ :=
              call_ok player (g.current_bet - player.chips_in_play) p2 r hc
            have hbal : p2.balance =
                player.balance - (g.current_bet - player.chips_in_play) := by
              rw [hp2]
            have hAt2 : playerAt
                { g with players := g.players.set i p2,
                         pot := g.pot + (g.current_bet - player.chips_in_play) }
                i = p2 := by
              unfold playerAt
              rw [playerAt_set_self g i p2 hplen]
              rfl
            rw [hAt2, hpAt]
            refine ⟨?_, ?_, ?_⟩
            · show g.pot + (g.current_bet - player.chips_in_play) =
                g.pot + (player.balance - p2.balance)
              rw [hbal]
              ring
            · intro _
              show g.pot ≤ g.pot + (g.current_bet - player.chips_in_play)
              linarith
            · intro hfc
              rcases hfc with hh | hh <;> simp at hh
        · rw [player_action_call_check g i player hget hpos] at h
          injection h with h
          subst h
          have hAt2 : playerAt { g with players := g.players.set i player.check } i =
              player.check := by
            unfold playerAt
            rw [playerAt_set_self g i player.check hplen]
            rfl
          rw [hAt2, hpAt]
          refine ⟨?_, ?_, ?_⟩
          · show g.pot = g.pot + (player.balance - player.balance)
            ring
          · intro _
            show g.pot ≤ g.pot
            exact le_refl _
          · intro hfc
            rcases hfc with hh | hh <;> simp at hh
      | Raise amount =>
        cases hr : player.raise amount with
        | error e =>
          rw [player_action_raise_err g i player amount e hget hr] at h
          cases h
        | ok pr =>
          obtain ⟨p2, r⟩ := pr
          rw [player_action_raise_ok g i player p2 amount r hget hr] at h
          injection h with h
          subst h
          obtain ⟨hp2, hrr, h0, hle⟩ := raise_ok player amount p2 r hr
          have hbal : p2.balance = player.balance - amount := by rw [hp2]
          have hAt2 := playerAt_resetOthers_set_self g i p2 hplen
            (g.pot + amount) (g.current_bet + amount)
          rw [hAt2, hpAt]
          refine ⟨?_, ?_, ?_⟩
          · show g.pot + amount = g.pot + (player.balance - p2.balance)
            rw [hbal]
            ring
          · intro _
            show g.pot ≤ g.pot + amount
            linarith
          · intro hfc
            rcases hfc with hh | hh <;> simp at hh
      | AllIn =>
        have hbal0 : (player.all_in).1.balance = 0 := rfl
        have hamt : (player.all_in).2 = player.balance := rfl
        by_cases hgt : (player.all_in).1.chips_in_play > g.current_bet
        · rw [player_action_allin_high g i player hget hgt] at h
          injection h with h
          subst h
          have hAt2 := playerAt_resetOthers_set_self g i (player.all_in).1 hplen
            (g.pot + (player.all_in).2) ((player.all_in).1.chips_in_play)
          rw [hAt2, hpAt]
          refine ⟨?_, ?_, ?_⟩
          · show g.pot + (player.all_in).2 =
              g.pot + (player.balance - (player.all_in).1.balance)
            rw [hbal0, hamt]
            ring
          · intro hb
            show g.pot ≤ g.pot + (player.all_in).2
            rw [hamt]
            linarith
          · intro hfc
            rcases hfc with hh | hh <;> simp at hh
        · rw [player_action_allin_low g i player hget hgt] at h
          injection h with h
          subst h
          have hAt2 : playerAt
              { g with players := g.players.set i (player.all_in).1,
                       pot := g.pot + (player.all_in).2 }
              i = (player.all_in).1 := by
            unfold playerAt
            rw [playerAt_set_self g i (player.all_in).1 hplen]
            rfl
          rw [hAt2, hpAt]
          refine ⟨?_, ?_, ?_⟩
          · show g.pot + (player.all_in).2 =
              g.pot + (player.balance - (player.all_in).1.balance)
            rw [hbal0, hamt]
            ring
          · intro hb
            show g.pot ≤ g.pot + (player.all_in).2
            rw [hamt]
            linarith
          · intro hfc
            rcases hfc with hh | hh <;> simp at hh
  · intro g
    refine ⟨?_, ?_, ?_⟩
    · unfold Game.deal_flop
      split <;> rfl
    · unfold Game.deal_turn
      split <;> rfl
    · unfold Game.deal_river
      split <;> rfl

/-- The running two-player example: alice and bob with 100 chips each at a
5/10 table, a fixed deck, the started hand, and seat 0 calling the blind. -/
def gTwo : Game :=
  Game.add_player (Game.add_player (Game.new 5 10 []) "alice" 100) "bob" 100

def deckTwo : Deck :=
  [⟨Rank.Two, Suit.Clubs⟩, ⟨Rank.Three, Suit.Clubs⟩, ⟨Rank.Four, Suit.Clubs⟩,
   ⟨Rank.Five, Suit.Clubs⟩, ⟨Rank.Six, Suit.Clubs⟩, ⟨Rank.Seven, Suit.Clubs⟩,
   ⟨Rank.Eight, Suit.Clubs⟩, ⟨Rank.Nine, Suit.Clubs⟩, ⟨Rank.Ten, Suit.Clubs⟩]

/-- The state after `start_new_hand` on the running example (dealer moved to
seat 1, blinds 5 and 10 posted by seats 0 and 1, two hole cards each). -/
def gTwoStarted : Game :=
  { players := [{ name := "alice", balance := 95,
                  hole_cards := [⟨Rank.Ten, Suit.Clubs⟩, ⟨Rank.Eight, Suit.Clubs⟩],
                  hand_strength := 0, chips_in_play := 5,
                  state := PlayerState.Active, action := none },
                { name := "bob", balance := 90,
                  hole_cards := [⟨Rank.Nine, Suit.Clubs⟩, ⟨Rank.Seven, Suit.Clubs⟩],
                  hand_strength := 0, chips_in_play := 10,
                  state := PlayerState.Active, action := none }],
    deck := [⟨Rank.Two, Suit.Clubs⟩, ⟨Rank.Three, Suit.Clubs⟩, ⟨Rank.Four, Suit.Clubs⟩,
             ⟨Rank.Five, Suit.Clubs⟩, ⟨Rank.Six, Suit.Clubs⟩],
    current_player := 0, current_round := BettingRound.PreFlop,
    community_cards := [], pot := 15, current_bet := 10, dealer_position := 1,
    small_blind := 5, big_blind := 10, active_players := [0, 1] }

/-- The state after seat 0 then calls the big blind (pays 5 more). -/
def gTwoCalled : Game :=
  { gTwoStarted with
    players := [{ name := "alice", balance := 90,
                  hole_cards := [⟨Rank.Ten, Suit.Clubs⟩, ⟨Rank.Eight, Suit.Clubs⟩],
                  hand_strength := 0, chips_in_play := 10,
                  state := PlayerState.Active, action := some PlayerAction.Call },
                { name := "bob", balance := 90,
                  hole_cards := [⟨Rank.Nine, Suit.Clubs⟩, ⟨Rank.Seven, Suit.Clubs⟩],
                  hand_strength := 0, chips_in_play := 10,
                  state := PlayerState.Active, action := none }],
    pot := 20 }

/-- `start_new_hand` on the running example evaluates to `gTwoStarted`. -/
theorem gTwo_start_eval :
    gTwo.start_new_hand deckTwo = Except.ok gTwoStarted := by
  norm_num [gTwo, deckTwo, gTwoStarted, Game.start_new_hand, resetForHand,
    advanceDealer, setFirstActor, Game.post_blinds, postSmallBlindAt,
    postBigBlindAt, Player.bet, Game.deal_hole_cards, dealOneRound, Deck.draw,
    Game.update_active_players, activeIdxFrom, Player.reset_for_new_hand,
    Player.new, Game.add_player, Game.new, Player.add_card, List.get?,
    List.getLast?, List.dropLast, List.set]

/-- Seat 0 calling on `gTwoStarted` evaluates to `gTwoCalled`. -/
theorem gTwo_call_eval :
    gTwoStarted.player_action 0 PlayerAction.Call = Except.ok gTwoCalled := by
  norm_num [gTwoStarted, gTwoCalled, Game.player_action, Player.call,
    Player.bet, Player.check, List.get?, List.set]

/-- Closed instance of C3 discharging its hypotheses on the running example:
the started hand and seat 0 calling. -/
theorem pot_accounting_witness :
    gTwoStarted.pot = sumBalance gTwo.players - sumBalance gTwoStarted.players ∧
    gTwoCalled.pot = gTwoStarted.pot +
      ((playerAt gTwoStarted 0).balance - (playerAt gTwoCalled 0).balance) ∧
    gTwoStarted.pot ≤ gTwoCalled.pot ∧
    (Game.deal_flop gTwoCalled).pot = gTwoCalled.pot := by
  have h1 := pot_accounting.1 gTwo deckTwo gTwoStarted gTwo_start_eval
  have h2 := pot_accounting.2.1 gTwoStarted 0 PlayerAction.Call gTwoCalled
    gTwo_call_eval
  refine ⟨h1, h2.1, h2.2.1 ?_, (pot_accounting.2.2 gTwoCalled).1⟩
  norm_num [playerAt, gTwoStarted, List.get?]

/-! ## Claim C4 -/

/-- C4: every listed validation failure is a typed returned error: an
out-of-range seat, an illegal Check, an underfunded Call, an underfunded or
non-positive Raise, and starting a hand with fewer than two players.  In the
source each of these returns before any write, which the `Except` embedding
mirrors: an error result carries no modified state, so the Game and its
players are untouched. -/
theorem validation_errors :
    (∀ g i a, g.players.length ≤ i →
      Game.player_action g i a = Except.error "Invalid player index") ∧
    (∀ g i p, g.players.get? i = some p → g.current_bet > p.chips_in_play →
      Game.player_action g i PlayerAction.Check =
        Except.error "Cannot check when there\x27s a bet to call") ∧
    (∀ g i p, g.players.get? i = some p →
      0 < g.current_bet - p.chips_in_play →
      p.balance < g.current_bet - p.chips_in_play →
      Game.player_action g i PlayerAction.Call =
        Except.error "Insufficient funds") ∧
    (∀ g i p amount, g.players.get? i = some p → p.balance < amount →
      Game.player_action g i (PlayerAction.Raise amount) =
        Except.error "Insufficient funds") ∧
    (∀ g i p amount, g.players.get? i = some p → amount ≤ 0 →
      amount ≤ p.balance →
      Game.player_action g i (PlayerAction.Raise amount) =
        Except.error "Bet amount must be positive") ∧
    (∀ g d, g.players.length < 2 →
      Game.start_new_hand g d =
        Except.error "Need at least 2 players to start a hand") := by
  refine ⟨?_, ?_, ?_, ?_, ?_, ?_⟩
  · intro g i a hlen
    exact player_action_oob g i a (List.get?_eq_none.mpr hlen)
  · intro g i p hget hb
    exact player_action_check_err g i p hget hb
  · intro g i p hget hpos hfund
    apply player_action_call_err g i p _ hget hpos
    unfold Player.call Player.bet
    rw [if_pos (by linarith : g.current_bet - p.chips_in_play > p.balance)]
  · intro g i p amount hget hfund
    apply player_action_raise_err g i p amount _ hget
    unfold Player.raise Player.bet
    rw [if_pos (by linarith : amount > p.balance)]
  · intro g i p amount hget hnp hle
    apply player_action_raise_err g i p amount _ hget
    unfold Player.raise Player.bet
    rw [if_neg (by linarith : ¬ amount > p.balance), if_pos hnp]
  · intro g d hlen
    unfold Game.start_new_hand
    rw [if_pos hlen]

/-- A seat too poor to call or raise: current_bet 100, no chips in play,
balance 50. -/
def gPoor : Game :=
  { gTwoStarted with
    players := [{ Player.new "carol" 50 with chips_in_play := 0 },
                { Player.new "dave" 200 with chips_in_play := 100 }],
    current_bet := 100 }

/-- A one-player table. -/
def gSolo : Game := Game.add_player (Game.new 5 10 []) "solo" 100

/-- Closed instance of C4 discharging each hypothesis on concrete games. -/
theorem validation_errors_witness :
    Game.player_action gTwoStarted 5 PlayerAction.Fold =
      Except.error "Invalid player index" ∧
    Game.player_action gTwoStarted 0 PlayerAction.Check =
      Except.error "Cannot check when there\x27s a bet to call" ∧
    Game.player_action gPoor 0 PlayerAction.Call =
      Except.error "Insufficient funds" ∧
    Game.player_action gPoor 0 (PlayerAction.Raise 200) =
      Except.error "Insufficient funds" ∧
    Game.player_action gPoor 0 (PlayerAction.Raise 0) =
      Except.error "Bet amount must be positive" ∧
    Game.start_new_hand gSolo deckTwo =
      Except.error "Need at least 2 players to start a hand" := by
  refine ⟨?_, ?_, ?_, ?_, ?_, ?_⟩
  · exact validation_errors.1 gTwoStarted 5 PlayerAction.Fold
      (by norm_num [gTwoStarted])
  · exact validation_errors.2.1 gTwoStarted 0 _ rfl
      (by norm_num [gTwoStarted])
  · exact validation_errors.2.2.1 gPoor 0 _ rfl
      (by norm_num [gPoor, Player.new]) (by norm_num [gPoor, Player.new])
  · exact validation_errors.2.2.2.1 gPoor 0 _ 200 rfl
      (by norm_num [gPoor, Player.new])
  · exact validation_errors.2.2.2.2.1 gPoor 0 _ 0 rfl (by norm_num)
      (by norm_num [gPoor, Player.new])
  · exact validation_errors.2.2.2.2.2 gSolo deckTwo
      (by norm_num [gSolo, Game.add_player, Game.new])

/-! ## Claim C5 -/

/-- Amended C5: a successful Raise by seat X for `amount` sets current_bet to
the old current_bet plus amount, adds amount to the pot, clears the recorded
action of every other Active player, leaves the recorded actions of Folded
and AllIn players unchanged, and sets X's own recorded action to
Raise(amount) (rather than leaving it unchanged, as the original claim
stated). -/
theorem raise_effects (g : Game) (x : Nat) (amount : ℚ) (g2 : Game)
    (h : Game.player_action g x (PlayerAction.Raise amount) = Except.ok g2) :
    g2.current_bet = g.current_bet + amount ∧
    g2.pot = g.pot + amount ∧
    (∀ j, j < g.players.length → j ≠ x →
      ((playerAt g j).state = PlayerState.Active →
        (playerAt g2 j).action = none) ∧
      ((playerAt g j).state = PlayerState.Folded ∨
          (playerAt g j).state = PlayerState.AllIn →
        (playerAt g2 j).action = (playerAt g j).action)) ∧
    (playerAt g2 x).action = some (PlayerAction.Raise amount) := by
  cases hget : g.players.get? x with
  | none =>
    rw [player_action_oob g x _ hget] at h
    cases h
  | some player =>
    have hplen : x < g.players.length := by
      rcases List.get?_eq_some.mp hget with ⟨hh, _⟩
      exact hh
    cases hr : player.raise amount with
    | error e =>
      rw [player_action_raise_err g x player amount e hget hr] at h
      cases h
    | ok pr =>
      obtain ⟨p2, r⟩ := pr
      rw [player_action_raise_ok g x player p2 amount r hget hr] at h
      injection h with h
      subst h
      obtain ⟨hp2, hrr, h0, hle⟩ := raise_ok player amount p2 r hr
      refine ⟨rfl, rfl, ?_, ?_⟩
      · intro j hj hjx
        have hqj : g.players.get? j = some (playerAt g j) := by
          unfold playerAt
          rw [List.get?_eq_get hj]
          rfl
        have hres : playerAt (Game.reset_other_player_actions
            { g with players := g.players.set x p2, pot := g.pot + amount,
                     current_bet := g.current_bet + amount } x) j =
            (if j ≠ x ∧ (playerAt g j).state = PlayerState.Active then
              { playerAt g j with action := none }
            else playerAt g j) := by
          unfold playerAt Game.reset_other_player_actions
          simp only
          rw [resetOthersFrom_get? x (g.players.set x p2) 0 j]
          rw [List.get?_set_ne _ _ (fun hxj => hjx hxj.symm)]
          rw [hqj]
          simp only [Option.map_some', Option.getD_some, Nat.zero_add]
        constructor
        · intro hact
          rw [hres, if_pos ⟨hjx, hact⟩]
        · intro hfa
          have hnact : ¬ (playerAt g j).state = PlayerState.Active := by
            rcases hfa with hf | hf <;> rw [hf] <;> intro hc <;> cases hc
          rw [hres, if_neg (fun hc => hnact hc.2)]
      · have hAt2 := playerAt_resetOthers_set_self g x p2 hplen
          (g.pot + amount) (g.current_bet + amount)
        rw [hAt2, hp2]

/-- The result of seat 0 raising by 20 from `gTwoStarted`: pot 35,
current_bet 30, alice marked Raise(20). -/
def gTwoRaised : Game :=
  { gTwoStarted with
    players := [{ name := "alice", balance := 75,
                  hole_cards := [⟨Rank.Ten, Suit.Clubs⟩, ⟨Rank.Eight, Suit.Clubs⟩],
                  hand_strength := 0, chips_in_play := 25,
                  state := PlayerState.Active,
                  action := some (PlayerAction.Raise 20) },
                { name := "bob", balance := 90,
                  hole_cards := [⟨Rank.Nine, Suit.Clubs⟩, ⟨Rank.Seven, Suit.Clubs⟩],
                  hand_strength := 0, chips_in_play := 10,
                  state := PlayerState.Active, action := none }],
    pot := 35, current_bet := 30 }

/-- The raise by seat 0 on the running example evaluates to `gTwoRaised`. -/
theorem gTwo_raise_eval :
    Game.player_action gTwoStarted 0 (PlayerAction.Raise 20) =
      Except.ok gTwoRaised := by
  norm_num [gTwoStarted, gTwoRaised, Game.player_action, Player.raise,
    Player.bet, Game.reset_other_player_actions, resetOthersFrom,
    List.get?, List.set]

/-- Counterexample to C5 as stated: after a successful Raise, seat 0's own
recorded action is not unchanged — it was none and becomes Raise(20). -/
theorem raise_changes_own_action :
    Game.player_action gTwoStarted 0 (PlayerAction.Raise 20) =
      Except.ok gTwoRaised ∧
    (playerAt gTwoRaised 0).action ≠ (playerAt gTwoStarted 0).action := by
  refine ⟨gTwo_raise_eval, ?_⟩
  simp [playerAt, gTwoRaised, gTwoStarted, List.get?]

/-- Closed instance of the amended C5 on the running example. -/
theorem raise_effects_witness :
    gTwoRaised.current_bet = gTwoStarted.current_bet + 20 ∧
    gTwoRaised.pot = gTwoStarted.pot + 20 ∧
    (∀ j, j < gTwoStarted.players.length → j ≠ 0 →
      ((playerAt gTwoStarted j).state = PlayerState.Active →
        (playerAt gTwoRaised j).action = none) ∧
      ((playerAt gTwoStarted j).state = PlayerState.Folded ∨
          (playerAt gTwoStarted j).state = PlayerState.AllIn →
        (playerAt gTwoRaised j).action = (playerAt gTwoStarted j).action)) ∧
    (playerAt gTwoRaised 0).action = some (PlayerAction.Raise 20) :=
  raise_effects gTwoStarted 0 20 gTwoRaised gTwo_raise_eval

/-! ## Claim C7 -/

/-- C7: on any in-range seat whose chips already cover the current bet
(call_amount = current_bet − chips_in_play ≤ 0), Call produces exactly the
same state as Check: the same result game, with no pot change, no balance
change, and the seat's recorded action set to Check. -/
theorem call_degrades_to_check (g : Game) (i : Nat) (player : Player)
    (hget : g.players.get? i = some player)
    (hle : g.current_bet - player.chips_in_play ≤ 0) :
    Game.player_action g i PlayerAction.Call =
      Game.player_action g i PlayerAction.Check ∧
    ∃ g2, Game.player_action g i PlayerAction.Call = Except.ok g2 ∧
      g2.pot = g.pot ∧
      (playerAt g2 i).balance = (playerAt g i).balance ∧
      (playerAt g2 i).action = some PlayerAction.Check := by
  have hplen : i < g.players.length := by
    rcases List.get?_eq_some.mp hget with ⟨hh, _⟩
    exact hh
  have hnp : ¬ 0 < g.current_bet - player.chips_in_play := not_lt.mpr hle
  have hb : ¬ g.current_bet > player.chips_in_play := by
    intro hgt
    exact hnp (by linarith)
  have hpAt : playerAt g i = player := by
    unfold playerAt
    rw [hget]
    rfl
  have hAt2 : playerAt { g with players := g.players.set i player.check } i =
      player.check := by
    unfold playerAt
    rw [playerAt_set_self g i player.check hplen]
    rfl
  rw [player_action_call_check g i player hget hnp,
    player_action_check_ok g i player hget hb]
  refine ⟨rfl, _, rfl, rfl, ?_, ?_⟩
  · rw [hAt2, hpAt]
    rfl
  · rw [hAt2]
    rfl

/-- Closed instance of C7: bob (seat 1) of `gTwoCalled` has already matched
the bet; his Call is exactly a Check. -/
theorem call_degrades_witness :
    Game.player_action gTwoCalled 1 PlayerAction.Call =
      Game.player_action gTwoCalled 1 PlayerAction.Check ∧
    ∃ g2, Game.player_action gTwoCalled 1 PlayerAction.Call = Except.ok g2 ∧
      g2.pot = gTwoCalled.pot ∧
      (playerAt g2 1).balance = (playerAt gTwoCalled 1).balance ∧
      (playerAt g2 1).action = some PlayerAction.Check :=
  call_degrades_to_check gTwoCalled 1 _ rfl
    (by norm_num [gTwoCalled, gTwoStarted, List.get?])

/-! ## Claim C10 -/

/-- Each pass of the community-dealing loop only appends to the board. -/
theorem dealCommunityN_snd_append (n : Nat) :
    ∀ (d : Deck) (cc : List Card), ∃ e, (dealCommunityN n d cc).2 = cc ++ e := by
  induction n with
  | zero =>
    intro d cc
    exact ⟨[], (List.append_nil cc).symm⟩
  | succ m ih =>
    intro d cc
    obtain ⟨e1, he1⟩ := dealCommunity_snd_append d cc
    obtain ⟨e2, he2⟩ := ih (dealCommunity d cc).1 (dealCommunity d cc).2
    refine ⟨e1 ++ e2, ?_⟩
    unfold dealCommunityN
    rw [he2, he1, List.append_assoc]

/-- C10: the street deals (flop, turn, river) leave the pot, the seat to
act, the dealer button, and every player's balance, chips_in_play, state,
and hole_cards unchanged (so chips_in_play is never zeroed on a street
advance); they only draw from the deck, append community cards, and — when
the round matches — advance current_round, reset current_bet to 0, and clear
every player's recorded action. -/
theorem street_deal_frame (g : Game) :
    ((Game.deal_flop g).pot = g.pot ∧
      (Game.deal_flop g).current_player = g.current_player ∧
      (Game.deal_flop g).dealer_position = g.dealer_position ∧
      (∀ i, ((Game.deal_flop g).players.get? i).map noActionView =
        (g.players.get? i).map noActionView) ∧
      (∃ extra, (Game.deal_flop g).community_cards =
        g.community_cards ++ extra)) ∧
    (g.current_round = BettingRound.PreFlop →
      (Game.deal_flop g).current_round = BettingRound.Flop ∧
      (Game.deal_flop g).current_bet = 0 ∧
      ∀ i, ((Game.deal_flop g).players.get? i).map Player.action =
        (g.players.get? i).map (fun _ => none)) ∧
    ((Game.deal_turn g).pot = g.pot ∧
      (Game.deal_turn g).current_player = g.current_player ∧
      (Game.deal_turn g).dealer_position = g.dealer_position ∧
      (∀ i, ((Game.deal_turn g).players.get? i).map noActionView =
        (g.players.get? i).map noActionView) ∧
      (∃ extra, (Game.deal_turn g).community_cards =
        g.community_cards ++ extra)) ∧
    (g.current_round = BettingRound.Flop →
      (Game.deal_turn g).current_round = BettingRound.Turn ∧
      (Game.deal_turn g).current_bet = 0 ∧
      ∀ i, ((Game.deal_turn g).players.get? i).map Player.action =
        (g.players.get? i).map (fun _ => none)) ∧
    ((Game.deal_river g).pot = g.pot ∧
      (Game.deal_river g).current_player = g.current_player ∧
      (Game.deal_river g).dealer_position = g.dealer_position ∧
      (∀ i, ((Game.deal_river g).players.get? i).map noActionView =
        (g.players.get? i).map noActionView) ∧
      (∃ extra, (Game.deal_river g).community_cards =
        g.community_cards ++ extra)) ∧
    (g.current_round = BettingRound.Turn →
      (Game.deal_river g).current_round = BettingRound.River ∧
      (Game.deal_river g).current_bet = 0 ∧
      ∀ i, ((Game.deal_river g).players.get? i).map Player.action =
        (g.players.get? i).map (fun _ => none)) := by
  refine ⟨?_, ?_, ?_, ?_, ?_, ?_⟩
  · by_cases hr : g.current_round = BettingRound.PreFlop
    · unfold Game.deal_flop
      rw [if_pos hr]
      exact ⟨rfl, rfl, rfl, fun i => map_resetAction_view g.players i,
        dealCommunityN_snd_append 3 (burnCard g.deck) g.community_cards⟩
    · unfold Game.deal_flop
      rw [if_neg hr]
      exact ⟨rfl, rfl, rfl, fun i => rfl, ⟨[], (List.append_nil _).symm⟩⟩
  · intro hr
    unfold Game.deal_flop
    rw [if_pos hr]
    exact ⟨rfl, rfl, fun i => map_resetAction_action g.players i⟩
  · by_cases hr : g.current_round = BettingRound.Flop
    · unfold Game.deal_turn
      rw [if_pos hr]
      exact ⟨rfl, rfl, rfl, fun i => map_resetAction_view g.players i,
        dealCommunityN_snd_append 1 (burnCard g.deck) g.community_cards⟩
    · unfold Game.deal_turn
      rw [if_neg hr]
      exact ⟨rfl, rfl, rfl, fun i => rfl, ⟨[], (List.append_nil _).symm⟩⟩
  · intro hr
    unfold Game.deal_turn
    rw [if_pos hr]
    exact ⟨rfl, rfl, fun i => map_resetAction_action g.players i⟩
  · by_cases hr : g.current_round = BettingRound.Turn
    · unfold Game.deal_river
      rw [if_pos hr]
      exact ⟨rfl, rfl, rfl, fun i => map_resetAction_view g.players i,
        dealCommunityN_snd_append 1 (burnCard g.deck) g.community_cards⟩
    · unfold Game.deal_river
      rw [if_neg hr]
      exact ⟨rfl, rfl, rfl, fun i => rfl, ⟨[], (List.append_nil _).symm⟩⟩
  · intro hr
    unfold Game.deal_river
    rw [if_pos hr]
    exact ⟨rfl, rfl, fun i => map_resetAction_action g.players i⟩

/-- Games sitting in the Flop and Turn rounds, for the conditional parts
of C10. -/
def gAtFlop : Game := { gTwoCalled with current_round := BettingRound.Flop }

def gAtTurn : Game := { gTwoCalled with current_round := BettingRound.Turn }

/-- Closed instance of C10 discharging the round hypotheses on concrete
games in PreFlop, Flop, and Turn. -/
theorem street_deal_frame_witness :
    (Game.deal_flop gTwoCalled).current_round = BettingRound.Flop ∧
    (Game.deal_flop gTwoCalled).current_bet = 0 ∧
    (Game.deal_turn gAtFlop).current_round = BettingRound.Turn ∧
    (Game.deal_river gAtTurn).current_round = BettingRound.River := by
  refine ⟨?_, ?_, ?_, ?_⟩
  · exact ((street_deal_frame gTwoCalled).2.1 rfl).1
  · exact ((street_deal_frame gTwoCalled).2.1 rfl).2.1
  · exact ((street_deal_frame gAtFlop).2.2.2.1 rfl).1
  · exact ((street_deal_frame gAtTurn).2.2.2.2.2 rfl).1

/-! ## Claim C8 -/

/-- Two players whose no-cards views agree have equal balances. -/
theorem map_balance_of_map_view (o1 o2 : Option Player)
    (h : o1.map noCardsView = o2.map noCardsView) :
    o1.map Player.balance = o2.map Player.balance := by
  cases o1 with
  | none =>
    cases o2 with
    | none => rfl
    | some q => simp [noCardsView] at h
  | some p =>
    cases o2 with
    | none => simp [noCardsView] at h
    | some q =>
      simp only [Option.map_some', Option.some.injEq, noCardsView,
        Prod.mk.injEq] at h
      simp [h.2.1]

/-- Dealing hole cards preserves the balance at every seat. -/
theorem deal_hole_cards_get?_balance (g : Game) (j : Nat) :
    ((Game.deal_hole_cards g).players.get? j).map Player.balance =
      (g.players.get? j).map Player.balance := by
  apply map_balance_of_map_view
  show ((dealOneRound (dealOneRound g.players g.deck).1
      (dealOneRound g.players g.deck).2).1.get? j).map noCardsView =
    (g.players.get? j).map noCardsView
  rw [dealOneRound_view, dealOneRound_view]

/-- Balance of the seat player from an Option-level balance fact. -/
theorem balance_of_get?_map (ps : List Player) (j : Nat) (b : ℚ)
    (h : (ps.get? j).map Player.balance = some b) :
    ((ps.get? j).getD default).balance = b := by
  cases hj : ps.get? j with
  | none =>
    rw [hj] at h
    cases h
  | some q =>
    rw [hj] at h
    simp only [Option.map_some', Option.some.injEq] at h
    exact h

/-- C8: starting a hand in a game with exactly two players holding 100 chips
each and blinds 5/10 succeeds (for any fresh deck) and yields pot 15, balance
95 at seat (dealer+1) mod 2 (the small blind), balance 90 at seat
(dealer+2) mod 2 (the big blind), current_bet 10, an empty board, and the
PreFlop round. -/
theorem two_player_hand_start (g : Game) (p0 p1 : Player) (d : Deck)
    (hp : g.players = [p0, p1]) (hb0 : p0.balance = 100)
    (hb1 : p1.balance = 100) (hsb : g.small_blind = 5)
    (hbb : g.big_blind = 10) :
    ∃ g2, Game.start_new_hand g d = Except.ok g2 ∧
      g2.pot = 15 ∧
      (playerAt g2 ((g2.dealer_position + 1) % 2)).balance = 95 ∧
      (playerAt g2 ((g2.dealer_position + 2) % 2)).balance = 90 ∧
      g2.current_bet = 10 ∧ g2.community_cards = [] ∧
      g2.current_round = BettingRound.PreFlop := by
  have hlen : ¬ g.players.length < 2 := by rw [hp]; norm_num
  have hfacts :
      (setFirstActor (Game.update_active_players (Game.deal_hole_cards
        (Game.post_blinds (advanceDealer (resetForHand g d)))))).pot = 15 ∧
      (playerAt (setFirstActor (Game.update_active_players (Game.deal_hole_cards
          (Game.post_blinds (advanceDealer (resetForHand g d))))))
        (((setFirstActor (Game.update_active_players (Game.deal_hole_cards
          (Game.post_blinds (advanceDealer (resetForHand g d)))))).dealer_position
            + 1) % 2)).balance = 95 ∧
      (playerAt (setFirstActor (Game.update_active_players (Game.deal_hole_cards
          (Game.post_blinds (advanceDealer (resetForHand g d))))))
        (((setFirstActor (Game.update_active_players (Game.deal_hole_cards
          (Game.post_blinds (advanceDealer (resetForHand g d)))))).dealer_position
            + 2) % 2)).balance = 90 ∧
      (setFirstActor (Game.update_active_players (Game.deal_hole_cards
        (Game.post_blinds (advanceDealer (resetForHand g d)))))).current_bet = 10 ∧
      (setFirstActor (Game.update_active_players (Game.deal_hole_cards
        (Game.post_blinds (advanceDealer (resetForHand g d)))))).community_cards = [] ∧
      (setFirstActor (Game.update_active_players (Game.deal_hole_cards
        (Game.post_blinds (advanceDealer (resetForHand g d)))))).current_round =
        BettingRound.PreFlop := by
    have hBpl : (advanceDealer (resetForHand g d)).players =
        [p0.reset_for_new_hand, p1.reset_for_new_hand] := by
      simp [advanceDealer, resetForHand, hp]
    have hlenB : (advanceDealer (resetForHand g d)).players.length = 2 := by
      rw [hBpl]; rfl
    rcases Nat.mod_two_eq_zero_or_one (g.dealer_position + 1) with hcase | hcase
    · -- dealer lands on seat 0: small blind seat 1, big blind seat 0
      have hBd : (advanceDealer (resetForHand g d)).dealer_position = 0 := by
        simp only [advanceDealer, resetForHand]
        simp [hp, hcase]
      have hpb : Game.post_blinds (advanceDealer (resetForHand g d)) =
          postBigBlindAt
            (postSmallBlindAt (advanceDealer (resetForHand g d)) 1) 0 := by
        unfold Game.post_blinds
        rw [hBd, hlenB]
      have hq1 : (advanceDealer (resetForHand g d)).players.get? 1 =
          some p1.reset_for_new_hand := by
        rw [hBpl]; rfl
      have hsb2 : (advanceDealer (resetForHand g d)).small_blind = 5 := hsb
      have hbet1 : (p1.reset_for_new_hand).bet
          (advanceDealer (resetForHand g d)).small_blind =
          Except.ok ({ p1.reset_for_new_hand with
            balance := 95, chips_in_play := 5 }, 5) := by
        rw [hsb2]
        unfold Player.bet
        norm_num [Player.reset_for_new_hand, hb1]
      have hsmall := postSmallBlindAt_ok (advanceDealer (resetForHand g d)) 1
        p1.reset_for_new_hand _ 5 hq1 hbet1
      have hq0 : (postSmallBlindAt (advanceDealer (resetForHand g d)) 1).players.get? 0 =
          some p0.reset_for_new_hand := by
        rw [hsmall]
        simp only
        rw [hBpl]
        rfl
      have hbb2 : (postSmallBlindAt (advanceDealer (resetForHand g d)) 1).big_blind = 10 := by
        rw [hsmall]; exact hbb
      have hbet0 : (p0.reset_for_new_hand).bet
          (postSmallBlindAt (advanceDealer (resetForHand g d)) 1).big_blind =
          Except.ok ({ p0.reset_for_new_hand with
            balance := 90, chips_in_play := 10 }, 10) := by
        rw [hbb2]
        unfold Player.bet
        norm_num [Player.reset_for_new_hand, hb0]
      have hbig := postBigBlindAt_ok
        (postSmallBlindAt (advanceDealer (resetForHand g d)) 1) 0
        p0.reset_for_new_hand _ 10 hq0 hbet0
      have hC := hpb.trans hbig
      have hCd : (Game.post_blinds (advanceDealer (resetForHand g d))).dealer_position = 0 := by
        rw [hC, hsmall]
        exact hBd
      have hfd : (setFirstActor (Game.update_active_players (Game.deal_hole_cards
          (Game.post_blinds (advanceDealer (resetForHand g d)))))).dealer_position = 0 := hCd
      have hplayers : (Game.post_blinds (advanceDealer (resetForHand g d))).players =
          [{ p0.reset_for_new_hand with balance := 90, chips_in_play := 10 },
           { p1.reset_for_new_hand with balance := 95, chips_in_play := 5 }] := by
        rw [hC, hsmall]
        simp only
        rw [hBpl]
        rfl
      have hbal1 : ((Game.post_blinds (advanceDealer (resetForHand g d))).players.get? 1).map
          Player.balance = some 95 := by
        rw [hplayers]; rfl
      have hbal0 : ((Game.post_blinds (advanceDealer (resetForHand g d))).players.get? 0).map
          Player.balance = some 90 := by
        rw [hplayers]; rfl
      have hfin1 : ((setFirstActor (Game.update_active_players (Game.deal_hole_cards
          (Game.post_blinds (advanceDealer (resetForHand g d)))))).players.get? 1).map
          Player.balance = some 95 := by
        show ((Game.deal_hole_cards (Game.post_blinds (advanceDealer
          (resetForHand g d)))).players.get? 1).map Player.balance = some 95
        rw [deal_hole_cards_get?_balance]
        exact hbal1
      have hfin0 : ((setFirstActor (Game.update_active_players (Game.deal_hole_cards
          (Game.post_blinds (advanceDealer (resetForHand g d)))))).players.get? 0).map
          Player.balance = some 90 := by
        show ((Game.deal_hole_cards (Game.post_blinds (advanceDealer
          (resetForHand g d)))).players.get? 0).map Player.balance = some 90
        rw [deal_hole_cards_get?_balance]
        exact hbal0
      refine ⟨?_, ?_, ?_, ?_, ?_, ?_⟩
      · show (Game.post_blinds (advanceDealer (resetForHand g d))).pot = 15
        rw [hC, hsmall]
        show (0 : ℚ) + g.small_blind + g.big_blind = 15
        rw [hsb, hbb]
        norm_num
      · rw [hfd]
        exact balance_of_get?_map _ 1 95 hfin1
      · rw [hfd]
        exact balance_of_get?_map _ 0 90 hfin0
      · show (Game.post_blinds (advanceDealer (resetForHand g d))).current_bet = 10
        rw [hC]
        exact hbb2
      · show (Game.post_blinds (advanceDealer (resetForHand g d))).community_cards = []
        rw [hC, hsmall]
        rfl
      · show (Game.post_blinds (advanceDealer (resetForHand g d))).current_round =
          BettingRound.PreFlop
        rw [hC, hsmall]
        rfl
    · -- dealer lands on seat 1: small blind seat 0, big blind seat 1
      have hBd : (advanceDealer (resetForHand g d)).dealer_position = 1 := by
        simp only [advanceDealer, resetForHand]
        simp [hp, hcase]
      have hpb : Game.post_blinds (advanceDealer (resetForHand g d)) =
          postBigBlindAt
            (postSmallBlindAt (advanceDealer (resetForHand g d)) 0) 1 := by
        unfold Game.post_blinds
        rw [hBd, hlenB]
      have hq0 : (advanceDealer (resetForHand g d)).players.get? 0 =
          some p0.reset_for_new_hand := by
        rw [hBpl]; rfl
      have hsb2 : (advanceDealer (resetForHand g d)).small_blind = 5 := hsb
      have hbet0 : (p0.reset_for_new_hand).bet
          (advanceDealer (resetForHand g d)).small_blind =
          Except.ok ({ p0.reset_for_new_hand with
            balance := 95, chips_in_play := 5 }, 5) := by
        rw [hsb2]
        unfold Player.bet
        norm_num [Player.reset_for_new_hand, hb0]
      have hsmall := postSmallBlindAt_ok (advanceDealer (resetForHand g d)) 0
        p0.reset_for_new_hand _ 5 hq0 hbet0
      have hq1 : (postSmallBlindAt (advanceDealer (resetForHand g d)) 0).players.get? 1 =
          some p1.reset_for_new_hand := by
        rw [hsmall]
        simp only
        rw [hBpl]
        rfl
      have hbb2 : (postSmallBlindAt (advanceDealer (resetForHand g d)) 0).big_blind = 10 := by
        rw [hsmall]; exact hbb
      have hbet1 : (p1.reset_for_new_hand).bet
          (postSmallBlindAt (advanceDealer (resetForHand g d)) 0).big_blind =
          Except.ok ({ p1.reset_for_new_hand with
            balance := 90, chips_in_play := 10 }, 10) := by
        rw [hbb2]
        unfold Player.bet
        norm_num [Player.reset_for_new_hand, hb1]
      have hbig := postBigBlindAt_ok
        (postSmallBlindAt (advanceDealer (resetForHand g d)) 0) 1
        p1.reset_for_new_hand _ 10 hq1 hbet1
      have hC := hpb.trans hbig
      have hCd : (Game.post_blinds (advanceDealer (resetForHand g d))).dealer_position = 1 := by
        rw [hC, hsmall]
        exact hBd
      have hfd : (setFirstActor (Game.update_active_players (Game.deal_hole_cards
          (Game.post_blinds (advanceDealer (resetForHand g d)))))).dealer_position = 1 := hCd
      have hplayers : (Game.post_blinds (advanceDealer (resetForHand g d))).players =
          [{ p0.reset_for_new_hand with balance := 95, chips_in_play := 5 },
           { p1.reset_for_new_hand with balance := 90, chips_in_play := 10 }] := by
        rw [hC, hsmall]
        simp only
        rw [hBpl]
        rfl
      have hbal0 : ((Game.post_blinds (advanceDealer (resetForHand g d))).players.get? 0).map
          Player.balance = some 95 := by
        rw [hplayers]; rfl
      have hbal1 : ((Game.post_blinds (advanceDealer (resetForHand g d))).players.get? 1).map
          Player.balance = some 90 := by
        rw [hplayers]; rfl
      have hfin0 : ((setFirstActor (Game.update_active_players (Game.deal_hole_cards
          (Game.post_blinds (advanceDealer (resetForHand g d)))))).players.get? 0).map
          Player.balance = some 95 := by
        show ((Game.deal_hole_cards (Game.post_blinds (advanceDealer
          (resetForHand g d)))).players.get? 0).map Player.balance = some 95
        rw [deal_hole_cards_get?_balance]
        exact hbal0
      have hfin1 : ((setFirstActor (Game.update_active_players (Game.deal_hole_cards
          (Game.post_blinds (advanceDealer (resetForHand g d)))))).players.get? 1).map
          Player.balance = some 90 := by
        show ((Game.deal_hole_cards (Game.post_blinds (advanceDealer
          (resetForHand g d)))).players.get? 1).map Player.balance = some 90
        rw [deal_hole_cards_get?_balance]
        exact hbal1
      refine ⟨?_, ?_, ?_, ?_, ?_, ?_⟩
      · show (Game.post_blinds (advanceDealer (resetForHand g d))).pot = 15
        rw [hC, hsmall]
        show (0 : ℚ) + g.small_blind + g.big_blind = 15
        rw [hsb, hbb]
        norm_num
      · rw [hfd]
        exact balance_of_get?_map _ 0 95 hfin0
      · rw [hfd]
        exact balance_of_get?_map _ 1 90 hfin1
      · show (Game.post_blinds (advanceDealer (resetForHand g d))).current_bet = 10
        rw [hC]
        exact hbb2
      · show (Game.post_blinds (advanceDealer (resetForHand g d))).community_cards = []
        rw [hC, hsmall]
        rfl
      · show (Game.post_blinds (advanceDealer (resetForHand g d))).current_round =
          BettingRound.PreFlop
        rw [hC, hsmall]
        rfl
  unfold Game.start_new_hand
  rw [if_neg hlen]
  exact ⟨_, rfl, hfacts⟩

/-- Closed instance of C8 on the running example table. -/
theorem two_player_hand_start_witness :
    ∃ g2, Game.start_new_hand gTwo deckTwo = Except.ok g2 ∧
      g2.pot = 15 ∧
      (playerAt g2 ((g2.dealer_position + 1) % 2)).balance = 95 ∧
      (playerAt g2 ((g2.dealer_position + 2) % 2)).balance = 90 ∧
      g2.current_bet = 10 ∧ g2.community_cards = [] ∧
      g2.current_round = BettingRound.PreFlop :=
  two_player_hand_start gTwo (Player.new "alice" 100) (Player.new "bob" 100)
    deckTwo rfl rfl rfl rfl rfl

end Poker
